import Mathlib

/-!
Verification of the refinance-analysis engine.

This file gives a shallow embedding of the quantitative engine
(amortization math, break-even search, IRR bisection solver, scenario
generation, winner selection and verdict classification) and proves or
refutes the specification claims about it.

Modelling conventions:
* JavaScript `number` values are modelled as exact rationals (`ℚ`).
  The engine only performs field operations, integer powers and
  `Math.round`-based rounding, so every run of the source on exact
  decimal inputs is mirrored by the rational semantics.
* `Math.round x` rounds half toward positive infinity, i.e. `⌊x + 1/2⌋`.
* Month counts are modelled as `ℤ` where the source treats them as
  arbitrary numbers, and loops run `toNat` many iterations exactly as a
  `for (m = 1; m <= t; m++)` loop does.
* `null` return values are modelled with `Option`.
-/

/-- JS `Math.round`: rounds half toward positive infinity. -/
def jsRound (q : ℚ) : ℤ := ⌊q + 1/2⌋

/-- Rounding to two decimals: `Math.round(n * 100) / 100`. -/
def round2 (n : ℚ) : ℚ := ((⌊n * 100 + 1/2⌋ : ℤ) : ℚ) / 100

/-- A rational that is a whole number of cents. -/
def IsCent (q : ℚ) : Prop := ∃ k : ℤ, q = (k : ℚ) / 100

theorem isCent_round2 (q : ℚ) : IsCent (round2 q) :=
  ⟨⌊q * 100 + 1/2⌋, rfl⟩

theorem isCent_zero : IsCent 0 := ⟨0, by norm_num⟩

theorem IsCent.add {a b : ℚ} (ha : IsCent a) (hb : IsCent b) : IsCent (a + b) := by
  obtain ⟨j, rfl⟩ := ha
  obtain ⟨k, rfl⟩ := hb
  exact ⟨j + k, by push_cast; ring⟩

theorem IsCent.sub {a b : ℚ} (ha : IsCent a) (hb : IsCent b) : IsCent (a - b) := by
  obtain ⟨j, rfl⟩ := ha
  obtain ⟨k, rfl⟩ := hb
  exact ⟨j - k, by push_cast; ring⟩

theorem IsCent.mul_int {a : ℚ} (ha : IsCent a) (z : ℤ) : IsCent (a * z) := by
  obtain ⟨j, rfl⟩ := ha
  exact ⟨j * z, by push_cast; ring⟩

theorem round2_eq_self {q : ℚ} (h : IsCent q) : round2 q = q := by
  obtain ⟨k, rfl⟩ := h
  have : (k : ℚ) / 100 * 100 + 1/2 = (k : ℚ) + 1/2 := by ring
  rw [round2, this]
  rw [Int.floor_int_add]
  norm_num

theorem round2_sub_le (q : ℚ) : round2 q - q ≤ 1/200 := by
  have h := Int.floor_le (q * 100 + 1/2)
  rw [round2]
  nlinarith

theorem lt_round2_sub (q : ℚ) : -(1/200) < round2 q - q := by
  have h := Int.lt_floor_add_one (q * 100 + 1/2)
  rw [round2]
  nlinarith

theorem abs_round2_sub (q : ℚ) : |round2 q - q| ≤ 1/200 := by
  rw [abs_le]
  constructor
  · linarith [lt_round2_sub q]
  · exact round2_sub_le q

/-- Rounding the residue left after subtracting the rounded value gives zero. -/
theorem round2_sub_round2 (x : ℚ) : round2 (x - round2 x) = 0 := by
  have h1 : round2 x - x ≤ 1/200 := round2_sub_le x
  have h2 : -(1/200) < round2 x - x := lt_round2_sub x
  have : ⌊(x - round2 x) * 100 + 1/2⌋ = 0 := by
    rw [Int.floor_eq_zero_iff, Set.mem_Ico]
    constructor <;> nlinarith
  rw [round2, this]
  norm_num

-- ============================================================
-- Amortization Math  (src/lib/amortization.ts)
-- ============================================================

/-- One month's ledger entry of an amortization schedule. -/
structure AmortizationRow where
  month : ℤ
  payment : ℚ
  principalPaid : ℚ
  interestPaid : ℚ
  remainingBalance : ℚ
  deriving Repr, DecidableEq

/-- Monthly payment for a fixed-rate fully-amortizing loan
(`monthlyPayment` in src/lib/amortization.ts). -/
def monthlyPayment (principal annualRate : ℚ) (termMonths : ℤ) : ℚ :=
  if principal ≤ 0 then 0
  else if termMonths ≤ 0 then 0
  else if annualRate ≤ 0 then round2 (principal / (termMonths : ℚ))
  else
    let r := annualRate / 12
    let factor := (1 + r) ^ termMonths.toNat
    round2 (principal * (r * factor) / (factor - 1))

/-- Loop body of `amortizationSchedule`: `fuel` counts the remaining rows,
so `fuel = 0` after pattern matching marks the final month
(`m === termMonths` in the source). -/
def amortAux (pmt r : ℚ) : ℚ → ℤ → ℕ → List AmortizationRow
  | _, _, 0 => []
  | bal, m, fuel + 1 =>
    let interest := round2 (bal * r)
    let principalPaid := if fuel = 0 then round2 bal else round2 (pmt - interest)
    let bal1 := round2 (bal - principalPaid)
    let bal2 := if bal1 < 0 then 0 else bal1
    { month := m
      payment := if fuel = 0 then round2 (principalPaid + interest) else pmt
      principalPaid := principalPaid
      interestPaid := interest
      remainingBalance := bal2 } :: amortAux pmt r bal2 (m + 1) fuel

/-- Full month-by-month amortization schedule
(`amortizationSchedule` in src/lib/amortization.ts). -/
def amortizationSchedule (principal annualRate : ℚ) (termMonths : ℤ) :
    List AmortizationRow :=
  amortAux (monthlyPayment principal annualRate termMonths) (annualRate / 12)
    principal 1 termMonths.toNat

/-- Total interest paid within the first `k` months of a schedule
(`totalInterestWithinMonths` in src/lib/amortization.ts). -/
def totalInterestWithinMonths (schedule : List AmortizationRow) (k : ℤ) : ℚ :=
  round2 (((schedule.take (min k (schedule.length : ℤ)).toNat).map
    (fun row => row.interestPaid)).sum)

/-- Remaining principal balance at month `k`
(`remainingBalanceAtMonth` in src/lib/amortization.ts). -/
def remainingBalanceAtMonth (schedule : List AmortizationRow) (k : ℤ) : ℚ :=
  if k ≤ 0 then
    match schedule with
    | [] => 0
    | row :: _ => round2 (row.remainingBalance + row.principalPaid)
  else if (schedule.length : ℤ) ≤ k then 0
  else ((schedule[(k - 1).toNat]?).map (fun row => row.remainingBalance)).getD 0

-- ============================================================
-- Break-Even Calculations  (src/lib/breakeven.ts)
-- ============================================================

/-- Simple cashflow break-even (`simpleBreakEven` in src/lib/breakeven.ts):
months to recoup closing costs via monthly payment savings. -/
def simpleBreakEven (closingCosts baselineMonthlyPayment refiMonthlyPayment : ℚ) :
    Option ℚ :=
  let monthlySavings := baselineMonthlyPayment - refiMonthlyPayment
  if monthlySavings ≤ 0 then none
  else if closingCosts ≤ 0 then some 0
  else some ((⌈closingCosts / monthlySavings⌉ : ℤ) : ℚ)

/-- Loop of `trueBreakEven`: walk the zipped schedules accumulating
`baselineInterest - refiInterest` and return the first 1-indexed month
where the cumulative sum reaches the closing costs. -/
def tbeGo (closingCosts : ℚ) :
    List (AmortizationRow × AmortizationRow) → ℚ → ℕ → Option ℚ
  | [], _, _ => none
  | (b, r) :: rest, cum, m =>
    let cum1 := cum + (b.interestPaid - r.interestPaid)
    if closingCosts ≤ cum1 then some ((m + 1 : ℕ) : ℚ)
    else tbeGo closingCosts rest cum1 (m + 1)

/-- True (interest-based) break-even (`trueBreakEven` in src/lib/breakeven.ts). -/
def trueBreakEven (baselineSchedule refiSchedule : List AmortizationRow)
    (closingCosts : ℚ) (horizonMonths : ℤ) : Option ℚ :=
  if closingCosts ≤ 0 then some 0
  else
    let limit := min horizonMonths
      (min (baselineSchedule.length : ℤ) (refiSchedule.length : ℤ))
    tbeGo closingCosts ((baselineSchedule.zip refiSchedule).take limit.toNat) 0 0

-- ============================================================
-- IRR Computation  (src/lib/irr.ts, src/unnamed/part_003)
-- ============================================================

/-- Result of `computeIRR`: JS `null` is `noSolution`, JS `Infinity` is
`infiniteReturn`, and a finite number is `rate`. -/
inductive IRROutcome where
  | noSolution : IRROutcome
  | infiniteReturn : IRROutcome
  | rate : ℚ → IRROutcome
  deriving Repr, DecidableEq

/-- NPV of refi cash flows at a monthly discount rate `r`
(`npv` in src/lib/irr.ts).  `Math.pow(1 + r, -months)` with a positive
integer exponent is `((1 + r)⁻¹) ^ months`, and the unguarded
`Math.pow(1 + r, -N)` is the integer power `(1 + r) ^ (-N)`. -/
def npv (r fees refiPmt basePmt : ℚ) (refiTerm : ℤ) (balanceSaved : ℚ)
    (N : ℤ) : ℚ :=
  let k := min refiTerm N
  let paymentDelta := basePmt - refiPmt
  if r = 0 then
    -fees + paymentDelta * (k : ℚ) + basePmt * ((N : ℚ) - (k : ℚ)) + balanceSaved
  else
    let annuity : ℤ → ℚ := fun months =>
      if months ≤ 0 then 0 else (1 - ((1 + r)⁻¹) ^ months.toNat) / r
    let annuityK := annuity k
    let annuityN := annuity N
    let annuityAfter := annuityN - annuityK
    let discountN := (1 + r) ^ (-N);
    -fees + paymentDelta * annuityK + basePmt * annuityAfter +
      balanceSaved * discountN

/-- Bisection loop of `computeIRR`: a fixed 100 iterations with early exit
when `|NPV(mid)| < 0.01`; returns the annualized rate `(1+r)^12 - 1`. -/
def irrBisect (f : ℚ → ℚ) : ℕ → ℚ → ℚ → ℚ → ℚ
  | 0, lo, hi, _ => (1 + (lo + hi) / 2) ^ (12 : ℕ) - 1
  | fuel + 1, lo, hi, npvLo =>
    let mid := (lo + hi) / 2
    let npvMid := f mid
    if |npvMid| < 1/100 then (1 + mid) ^ (12 : ℕ) - 1
    else if (decide (0 ≤ npvMid)) = (decide (0 ≤ npvLo)) then
      irrBisect f fuel mid hi npvMid
    else irrBisect f fuel lo mid npvLo

/-- Annualized IRR of a refi scenario's closing-cost investment
(`computeIRR` in src/lib/irr.ts). -/
def computeIRR (fees refiMonthlyPayment baselineMonthlyPayment : ℚ)
    (refiTermMonths : ℤ) (balanceSavedAtHorizon : ℚ) (horizonMonths : ℤ) :
    IRROutcome :=
  if horizonMonths ≤ 0 then .noSolution
  else if fees ≤ 0 then .infiniteReturn
  else
    let f := fun r => npv r fees refiMonthlyPayment baselineMonthlyPayment
      refiTermMonths balanceSavedAtHorizon horizonMonths
    let lo0 : ℚ := -(8/100)
    let hi : ℚ := 2
    let npvLo0 := f lo0
    let npvHi := f hi
    if (decide (0 ≤ npvLo0)) = (decide (0 ≤ npvHi)) then
      let lo1 : ℚ := -(99/1000)
      let npvLo1 := f lo1
      if (decide (0 ≤ npvLo1)) = (decide (0 ≤ npvHi)) then
        let npvZero := f 0
        if (decide (0 ≤ npvZero)) ≠ (decide (0 ≤ npvHi)) then
          .rate (irrBisect f 100 0 hi npvZero)
        else .noSolution
      else .rate (irrBisect f 100 lo1 hi npvLo1)
    else .rate (irrBisect f 100 lo0 hi npvLo0)

-- ============================================================
-- Types  (src/lib/types.ts)
-- ============================================================

/-- Scenario identifiers. -/
inductive ScenarioId where
  | stay_current : ScenarioId
  | refi_same_term : ScenarioId
  | refi_15yr : ScenarioId
  | refi_30yr : ScenarioId
  deriving Repr, DecidableEq, BEq

/-- Verdict color. -/
inductive VerdictColor where
  | green : VerdictColor
  | yellow : VerdictColor
  | red : VerdictColor
  deriving Repr, DecidableEq

/-- Engine input: the borrower's position plus candidate refinance rates.
`horizonOverrideMonths` is the optional comparison-horizon override. -/
structure EngineInput where
  remainingBalance : ℚ
  currentAnnualRate : ℚ
  yearsRemaining : ℚ
  closingCosts : ℚ
  refiRateSameTerm : ℚ
  refiRate15yr : ℚ
  refiRate30yr : ℚ
  horizonOverrideMonths : Option ℤ := none
  deriving Repr, DecidableEq

/-- One candidate scenario's full outcome. -/
structure ScenarioResult where
  id : ScenarioId
  label : String
  rate : ℚ
  termMonths : ℤ
  monthlyPayment : ℚ
  monthlyDelta : ℚ
  interestWithinHorizon : ℚ
  fees : ℚ
  remainingBalanceAtHorizon : ℚ
  paymentsWithinHorizon : ℚ
  cashOutflowWithinHorizon : ℚ
  netCostAtHorizon : ℚ
  netSavingsAtHorizon : ℚ
  cashflowBreakEvenMonths : Option ℚ
  interestBreakEvenMonths : Option ℚ
  isBestLongTerm : Bool
  warnings : List String
  deriving Repr, DecidableEq

/-- Verdict record. -/
structure Verdict where
  color : VerdictColor
  label : String
  message : String
  breakEvenMonths : Option ℚ
  monthlyDelta : ℚ
  netSavings : ℚ
  bestScenarioId : ScenarioId
  deriving Repr, DecidableEq

/-- Full engine output. -/
structure EngineOutput where
  input : EngineInput
  horizonMonths : ℤ
  scenarios : List ScenarioResult
  verdict : Verdict
  deriving Repr, DecidableEq

/-- Placeholder scenario used to totalize the JS non-null assertion in
`runEngine` (`scenarios.find(...)!`); never reached on real runs. -/
def emptyScenario : ScenarioResult :=
  { id := .stay_current
    label := ""
    rate := 0
    termMonths := 0
    monthlyPayment := 0
    monthlyDelta := 0
    interestWithinHorizon := 0
    fees := 0
    remainingBalanceAtHorizon := 0
    paymentsWithinHorizon := 0
    cashOutflowWithinHorizon := 0
    netCostAtHorizon := 0
    netSavingsAtHorizon := 0
    cashflowBreakEvenMonths := none
    interestBreakEvenMonths := none
    isBestLongTerm := false
    warnings := [] }

-- ============================================================
-- Scenario Engine  (scenarios module in src/lib/lender-rates.ts)
-- ============================================================

/-- Stand-in for the presentation-only `toLocaleString` number formatting;
only ever used inside warning and message strings. -/
def formatNumber (n : ℚ) : String := toString n

/-- Parameters of the internal scenario builder. -/
structure BuildParams where
  id : ScenarioId
  label : String
  principal : ℚ
  rate : ℚ
  termMonths : ℤ
  horizonMonths : ℤ
  fees : ℚ
  baselinePayment : ℚ
  baselineSchedule : List AmortizationRow

/-- Internal scenario builder (`buildScenario` in the scenarios module). -/
def buildScenario (params : BuildParams) : ScenarioResult :=
  let pmt := monthlyPayment params.principal params.rate params.termMonths
  let schedule := amortizationSchedule params.principal params.rate params.termMonths
  let k := min params.horizonMonths params.termMonths
  let interestInHorizon := totalInterestWithinMonths schedule k
  let remBalance :=
    if params.termMonths ≤ params.horizonMonths then 0
    else remainingBalanceAtMonth schedule params.horizonMonths
  let paymentsWithinHorizon := round2 (pmt * (k : ℚ))
  let cashOutflowWithinHorizon := round2 (params.fees + paymentsWithinHorizon)
  let netCostAtHorizon := round2 (cashOutflowWithinHorizon + remBalance)
  let monthlyDelta := round2 (pmt - params.baselinePayment)
  let baselineInterest :=
    if 0 < params.baselineSchedule.length then
      round2 (totalInterestWithinMonths params.baselineSchedule params.horizonMonths)
    else 0
  let baselineNetCost := round2 baselineInterest
  let thisLegacyCost := round2 (interestInHorizon + params.fees)
  let netSavingsAtHorizon := round2 (baselineNetCost - thisLegacyCost)
  let cashflowBE := simpleBreakEven params.fees params.baselinePayment pmt
  let interestBE :=
    if 0 < params.baselineSchedule.length then
      trueBreakEven params.baselineSchedule schedule params.fees params.horizonMonths
    else none;
  { id := params.id
    label := params.label
    rate := params.rate
    termMonths := params.termMonths
    monthlyPayment := pmt
    monthlyDelta := monthlyDelta
    interestWithinHorizon := interestInHorizon
    fees := params.fees
    remainingBalanceAtHorizon := remBalance
    paymentsWithinHorizon := paymentsWithinHorizon
    cashOutflowWithinHorizon := cashOutflowWithinHorizon
    netCostAtHorizon := netCostAtHorizon
    netSavingsAtHorizon := netSavingsAtHorizon
    cashflowBreakEvenMonths := cashflowBE
    interestBreakEvenMonths := interestBE
    isBestLongTerm := false
    warnings := [] }

/-- Builder arguments of the baseline scenario, as passed by
`generateScenarios` in the source. -/
def baselineParams (input : EngineInput) : BuildParams :=
  { id := .stay_current
    label := "Stay Current"
    principal := input.remainingBalance
    rate := input.currentAnnualRate
    termMonths := jsRound (input.yearsRemaining * 12)
    horizonMonths := input.horizonOverrideMonths.getD (jsRound (input.yearsRemaining * 12))
    fees := 0
    baselinePayment := 0
    baselineSchedule := [] }

/-- Builder arguments of the same-term refi scenario. -/
def sameTermParams (input : EngineInput) (basePayment : ℚ)
    (baseSchedule : List AmortizationRow) : BuildParams :=
  { id := .refi_same_term
    label := "Refi (Same Term)"
    principal := input.remainingBalance
    rate := input.refiRateSameTerm
    termMonths := jsRound (input.yearsRemaining * 12)
    horizonMonths := input.horizonOverrideMonths.getD (jsRound (input.yearsRemaining * 12))
    fees := input.closingCosts
    baselinePayment := basePayment
    baselineSchedule := baseSchedule }

/-- Builder arguments of the 15-year refi scenario (term fixed at 180). -/
def refi15Params (input : EngineInput) (basePayment : ℚ)
    (baseSchedule : List AmortizationRow) : BuildParams :=
  { id := .refi_15yr
    label := "Refi (15-Year)"
    principal := input.remainingBalance
    rate := input.refiRate15yr
    termMonths := 180
    horizonMonths := input.horizonOverrideMonths.getD (jsRound (input.yearsRemaining * 12))
    fees := input.closingCosts
    baselinePayment := basePayment
    baselineSchedule := baseSchedule }

/-- Builder arguments of the 30-year reset scenario (term fixed at 360). -/
def refi30Params (input : EngineInput) (basePayment : ℚ)
    (baseSchedule : List AmortizationRow) : BuildParams :=
  { id := .refi_30yr
    label := "Refi (30-Year Reset)"
    principal := input.remainingBalance
    rate := input.refiRate30yr
    termMonths := 360
    horizonMonths := input.horizonOverrideMonths.getD (jsRound (input.yearsRemaining * 12))
    fees := input.closingCosts
    baselinePayment := basePayment
    baselineSchedule := baseSchedule }

/-- Generate all applicable scenarios from engine input
(`generateScenarios` in the scenarios module).  The JS pushes onto an
array; here the pushes appear as list appends guarded by the same
conditions, and the in-place finalization of the baseline's delta fields
appears as a record update. -/
def generateScenarios (input : EngineInput) : List ScenarioResult :=
  let rc := input.currentAnnualRate
  let Y := input.yearsRemaining
  let rSame := input.refiRateSameTerm
  let r15 := input.refiRate15yr
  let r30 := input.refiRate30yr
  let N := input.horizonOverrideMonths.getD (jsRound (Y * 12))
  let fullTerm := jsRound (Y * 12)
  let baseline0 := buildScenario (baselineParams input)
  let basePayment := baseline0.monthlyPayment
  let baseSchedule := amortizationSchedule input.remainingBalance rc fullTerm
  let baseline :=
    { baseline0 with
      monthlyDelta := 0
      netSavingsAtHorizon := 0
      cashflowBreakEvenMonths := none
      interestBreakEvenMonths := none }
  let sc30 := buildScenario (refi30Params input basePayment baseSchedule)
  let isFullTerm := input.horizonOverrideMonths = none ∨ input.horizonOverrideMonths = some 0
  let sc30w :=
    if 0 < sc30.remainingBalanceAtHorizon then
      if isFullTerm then
        { sc30 with warnings := sc30.warnings ++
            ["Term Reset Trap: You would still owe $" ++
              formatNumber sc30.remainingBalanceAtHorizon ++
              " when your original loan would have been paid off."] }
      else
        { sc30 with warnings := sc30.warnings ++
            ["Term Reset Tradeoff: At your " ++
              toString (jsRound (((input.horizonOverrideMonths.getD N) : ℚ) / 12)) ++
              "-year horizon, you would exit with $" ++
              formatNumber sc30.remainingBalanceAtHorizon ++
              " still owed. The 30-year extends your payoff date but lowers your monthly payment."] }
    else sc30
  List.cons baseline
    ((if rSame < rc then [buildScenario (sameTermParams input basePayment baseSchedule)]
      else []) ++
    (if 15 < Y ∧ r15 < rc then [buildScenario (refi15Params input basePayment baseSchedule)]
      else []) ++
    (if r30 < rc then [sc30w] else []))

-- ============================================================
-- Comparison & Verdict Logic  (src/lib/comparison.ts)
-- ============================================================

/-- Rank scenarios ascending by `netCostAtHorizon`
(`rankScenarios` in src/lib/comparison.ts).  JS `Array.prototype.sort`
is a stable sort, matched here by `List.insertionSort`. -/
def rankScenarios (scenarios : List ScenarioResult) : List ScenarioResult :=
  List.insertionSort (fun a b => a.netCostAtHorizon ≤ b.netCostAtHorizon) scenarios

/-- Select the winner scenario (`selectWinner` in src/lib/comparison.ts).
The JS mutates the winner's warnings in place; here the augmented winner
is returned as a value. -/
def selectWinner (ranked : List ScenarioResult) (baseline : ScenarioResult) :
    ScenarioResult :=
  match ranked with
  | [] => baseline
  | best :: _ =>
    if best.id = .stay_current then baseline
    else if baseline.monthlyPayment < best.monthlyPayment then
      if best.warnings.any (fun w => w.startsWith "Payment Increase") then best
      else
        { best with warnings := best.warnings ++
            ["Payment Increase Warning: +$" ++
              formatNumber (round2 (best.monthlyPayment - baseline.monthlyPayment)) ++
              "/mo higher than your current payment."] }
    else best

/-- Color classification relative to the horizon
(`determineColor` in src/lib/comparison.ts). -/
def determineColor (breakEven : Option ℚ) (netSavings horizonMonths : ℚ) :
    VerdictColor :=
  let horizonYears := horizonMonths / 12
  match breakEven with
  | none => .red
  | some be =>
    if netSavings < 0 then .red
    else if horizonMonths < be then .red
    else
      let ratio := be / horizonMonths
      let greenSavingsThreshold := 200 * horizonYears
      let yellowSavingsThreshold := 50 * horizonYears
      if ratio < 33/100 ∧ greenSavingsThreshold < netSavings then .green
      else if ratio < 67/100 ∧ yellowSavingsThreshold < netSavings then .yellow
      else .red

/-- Verdict label (`verdictLabel` in src/lib/comparison.ts). -/
def verdictLabel (color : VerdictColor) : String :=
  match color with
  | .green => "Refinance Looks Strong"
  | .yellow => "Worth a Closer Look"
  | .red => "Stay With Your Current Loan"

/-- Verdict message (`verdictMessage` in src/lib/comparison.ts); exact
wording is presentation-only. -/
def verdictMessage (color : VerdictColor) (winner : ScenarioResult)
    (breakEven : Option ℚ) (netSavings : ℚ) : String :=
  let monthlyAbs := |winner.monthlyDelta|
  let monthlyDir := if winner.monthlyDelta < 0 then "less" else "more"
  let savingsAbs := |netSavings|
  let beStr := match breakEven with
    | some q => toString q
    | none => "N/A"
  match color with
  | .green =>
    "You would recoup closing costs in " ++ beStr ++ " months and pay $" ++
      formatNumber monthlyAbs ++ "/mo " ++ monthlyDir ++
      ". Over the comparison horizon, that is $" ++ formatNumber savingsAbs ++
      " less in total cost. Best option: " ++ winner.label ++ "."
  | .yellow =>
    "Refinancing could save you $" ++ formatNumber savingsAbs ++
      " overall, but it would take " ++ beStr ++
      " months to break even on closing costs. Monthly payment would be $" ++
      formatNumber monthlyAbs ++ "/mo " ++ monthlyDir ++ "."
  | .red =>
    if netSavings < 0 then
      "At these rates, refinancing would cost you $" ++ formatNumber savingsAbs ++
        " more over your remaining loan term after accounting for closing costs."
    else
      "The potential savings of $" ++ formatNumber savingsAbs ++
        " are modest relative to closing costs. Break-even would take " ++
        beStr ++ " months."

/-- Generate the verdict object based on winner vs baseline
(`generateVerdict` in src/lib/comparison.ts). -/
def generateVerdict (winner _baseline : ScenarioResult) (horizonMonths : ℚ) :
    Verdict :=
  if winner.id = .stay_current then
    { color := .red
      label := "Stay With Your Current Loan"
      message := "At the provided rates, refinancing would not save you money after accounting for closing costs. Your current loan is your best option."
      breakEvenMonths := none
      monthlyDelta := 0
      netSavings := 0
      bestScenarioId := .stay_current }
  else
    let breakEven := match winner.interestBreakEvenMonths with
      | some q => some q
      | none => winner.cashflowBreakEvenMonths
    let netSavings := winner.netSavingsAtHorizon
    let monthlyDelta := winner.monthlyDelta
    let color := determineColor breakEven netSavings horizonMonths;
    { color := color
      label := verdictLabel color
      message := verdictMessage color winner breakEven netSavings
      breakEvenMonths := breakEven
      monthlyDelta := monthlyDelta
      netSavings := netSavings
      bestScenarioId := winner.id }

/-- Run the full engine (`runEngine` in src/lib/comparison.ts).  The JS
marks the winner by mutating the shared scenario objects; since scenario
ids are unique per run, replacing the element whose id matches the winner
and setting the flags is the value-level equivalent. -/
def runEngine (input : EngineInput) : EngineOutput :=
  let N := input.horizonOverrideMonths.getD (jsRound (input.yearsRemaining * 12))
  let scenarios := generateScenarios input
  let ranked := rankScenarios scenarios
  let baseline :=
    (scenarios.find? (fun s => s.id == ScenarioId.stay_current)).getD emptyScenario
  let winner := selectWinner ranked baseline
  let marked := scenarios.map (fun s =>
    let s1 := if s.id = winner.id then winner else s;
    { s1 with isBestLongTerm := decide (s.id = winner.id) })
  let verdict := generateVerdict winner baseline (N : ℚ);
  { input := input
    horizonMonths := N
    scenarios := marked
    verdict := verdict }

-- ============================================================
-- Helper lemmas about the scenario builder
-- ============================================================

theorem buildScenario_id (p : BuildParams) : (buildScenario p).id = p.id := rfl

theorem buildScenario_termMonths (p : BuildParams) :
    (buildScenario p).termMonths = p.termMonths := rfl

theorem buildScenario_fees (p : BuildParams) : (buildScenario p).fees = p.fees := rfl

theorem buildScenario_remBalance (p : BuildParams) :
    (buildScenario p).remainingBalanceAtHorizon =
      (if p.termMonths ≤ p.horizonMonths then 0
       else remainingBalanceAtMonth
         (amortizationSchedule p.principal p.rate p.termMonths) p.horizonMonths) := rfl

-- ============================================================
-- C7: simpleBreakEven characterization
-- ============================================================

/-- C7: `simpleBreakEven` returns `none` when the payment did not decrease,
`some 0` for positive savings and non-positive costs, and otherwise the
ceiling of costs over monthly savings; in particular
`simpleBreakEven 6000 2000 1800 = 30` and `simpleBreakEven 5000 2000 1700 = 17`. -/
theorem simpleBreakEven_spec :
    (∀ closingCosts baselinePayment refiPayment : ℚ,
      (baselinePayment - refiPayment ≤ 0 →
        simpleBreakEven closingCosts baselinePayment refiPayment = none) ∧
      (0 < baselinePayment - refiPayment → closingCosts ≤ 0 →
        simpleBreakEven closingCosts baselinePayment refiPayment = some 0) ∧
      (0 < baselinePayment - refiPayment → 0 < closingCosts →
        simpleBreakEven closingCosts baselinePayment refiPayment =
          some ((⌈closingCosts / (baselinePayment - refiPayment)⌉ : ℤ) : ℚ)))
    ∧ simpleBreakEven 6000 2000 1800 = some 30
    ∧ simpleBreakEven 5000 2000 1700 = some 17 := by
  refine ⟨fun c b r => ⟨?_, ?_, ?_⟩, ?_, ?_⟩
  · intro h
    simp [simpleBreakEven, h]
  · intro h1 h2
    simp [simpleBreakEven, not_le.mpr h1, h2]
  · intro h1 h2
    simp [simpleBreakEven, not_le.mpr h1, not_le.mpr h2]
  · have h1 : ¬((2000 : ℚ) - 1800 ≤ 0) := by norm_num
    have h2 : ¬((6000 : ℚ) ≤ 0) := by norm_num
    simp only [simpleBreakEven, if_neg h1, if_neg h2]
    norm_num
  · have h1 : ¬((2000 : ℚ) - 1700 ≤ 0) := by norm_num
    have h2 : ¬((5000 : ℚ) ≤ 0) := by norm_num
    simp only [simpleBreakEven, if_neg h1, if_neg h2]
    have h3 : (⌈(5000 : ℚ) / (2000 - 1700)⌉ : ℤ) = 17 := by
      rw [Int.ceil_eq_iff]
      norm_num
    rw [h3]
    norm_num

/-- Witness for C7 at concrete inputs. -/
theorem simpleBreakEven_spec_witness :
    (0 : ℚ) < 2000 - 1800 ∧ (0 : ℚ) < 6000 ∧
      simpleBreakEven 6000 2000 1800 =
        some ((⌈(6000 : ℚ) / (2000 - 1800)⌉ : ℤ) : ℚ) :=
  ⟨by norm_num, by norm_num,
    (simpleBreakEven_spec.1 6000 2000 1800).2.2 (by norm_num) (by norm_num)⟩

-- ============================================================
-- C5: computeIRR guard clauses
-- ============================================================

/-- C5 (amended): the horizon guard takes precedence: `computeIRR` returns
`null` whenever `horizonMonths ≤ 0`, and returns `+Infinity` when
`fees ≤ 0` and `horizonMonths > 0`. -/
theorem computeIRR_guard_spec :
    ∀ (fees refiPmt basePmt : ℚ) (refiTerm : ℤ) (balSaved : ℚ) (N : ℤ),
      (N ≤ 0 → computeIRR fees refiPmt basePmt refiTerm balSaved N =
        IRROutcome.noSolution) ∧
      (0 < N → fees ≤ 0 → computeIRR fees refiPmt basePmt refiTerm balSaved N =
        IRROutcome.infiniteReturn) := by
  intro fees refiPmt basePmt refiTerm balSaved N
  constructor
  · intro h
    simp [computeIRR, h]
  · intro h1 h2
    simp [computeIRR, not_le.mpr h1, h2]

/-- Witness for C5 at concrete inputs. -/
theorem computeIRR_guard_spec_witness :
    ((-3 : ℤ) ≤ 0 ∧ computeIRR 5 1 2 60 0 (-3) = IRROutcome.noSolution) ∧
      ((0 : ℤ) < 60 ∧ (0 : ℚ) ≤ 0 ∧
        computeIRR 0 1 2 60 0 60 = IRROutcome.infiniteReturn) :=
  ⟨⟨by norm_num, (computeIRR_guard_spec 5 1 2 60 0 (-3)).1 (by norm_num)⟩,
   ⟨by norm_num, le_refl 0, (computeIRR_guard_spec 0 1 2 60 0 60).2 (by norm_num) (le_refl 0)⟩⟩

/-- C5 counterexample: with `fees ≤ 0` and `horizonMonths ≤ 0` the code
returns `null`, not `+Infinity`, because the horizon check comes first. -/
theorem computeIRR_guard_counterexample :
    computeIRR 0 0 0 1 0 0 = IRROutcome.noSolution ∧
      computeIRR 0 0 0 1 0 0 ≠ IRROutcome.infiniteReturn := by
  constructor
  · simp [computeIRR]
  · simp [computeIRR]

-- ============================================================
-- C1: the baseline scenario's zero-field invariant
-- ============================================================

/-- C1 (amended): the baseline always has `fees = 0`, `monthlyDelta = 0`
and `netSavingsAtHorizon = 0`; its `remainingBalanceAtHorizon` is `0`
whenever the comparison horizon is at least the full remaining term (in
particular when no horizon override is set), but not in general. -/
theorem generateScenarios_baseline_spec (input : EngineInput) :
    ∃ b rest, generateScenarios input = b :: rest ∧
      b.id = ScenarioId.stay_current ∧ b.fees = 0 ∧ b.monthlyDelta = 0 ∧
      b.netSavingsAtHorizon = 0 ∧
      (jsRound (input.yearsRemaining * 12) ≤
          input.horizonOverrideMonths.getD (jsRound (input.yearsRemaining * 12)) →
        b.remainingBalanceAtHorizon = 0) := by
  refine ⟨_, _, rfl, rfl, rfl, rfl, rfl, fun h => ?_⟩
  exact if_pos h

/-- Input used to refute C1 as stated: a 12-month horizon override on a
24-month loan. -/
def c1Input : EngineInput :=
  { remainingBalance := 1000
    currentAnnualRate := 12/100
    yearsRemaining := 2
    closingCosts := 0
    refiRateSameTerm := 2/10
    refiRate15yr := 2/10
    refiRate30yr := 2/10
    horizonOverrideMonths := some 12 }

set_option maxRecDepth 10000 in
unseal Rat.mul Rat.add Rat.sub Rat.inv in
/-- C1 counterexample: with a horizon override shorter than the remaining
term, the baseline scenario's `remainingBalanceAtHorizon` is the (positive)
scheduled balance at the horizon, not `0`. -/
theorem generateScenarios_baseline_counterexample :
    c1Input.horizonOverrideMonths = some 12 ∧
      ((generateScenarios c1Input).headD emptyScenario).id =
        ScenarioId.stay_current ∧
      ((generateScenarios c1Input).headD emptyScenario).remainingBalanceAtHorizon =
        26493/50 ∧
      ((generateScenarios c1Input).headD emptyScenario).remainingBalanceAtHorizon ≠ 0 := by
  refine ⟨rfl, rfl, ?_, ?_⟩ <;> decide

/-- Witness input for C1: no horizon override. -/
def c1WitnessInput : EngineInput :=
  { remainingBalance := 1000
    currentAnnualRate := 12/100
    yearsRemaining := 2
    closingCosts := 0
    refiRateSameTerm := 2/10
    refiRate15yr := 2/10
    refiRate30yr := 2/10
    horizonOverrideMonths := none }

/-- Witness for C1 at a concrete input without override. -/
theorem generateScenarios_baseline_spec_witness :
    ((generateScenarios c1WitnessInput).headD emptyScenario).remainingBalanceAtHorizon = 0 := by
  obtain ⟨b, rest, hEq, _, _, _, _, hImp⟩ :=
    generateScenarios_baseline_spec c1WitnessInput
  rw [hEq, List.headD_cons]
  exact hImp (le_refl _)

-- ============================================================
-- C9: scenario inclusion rules
-- ============================================================

/-- C9: the scenario list always begins with `stay_current`; it contains
`refi_same_term` iff the same-term rate beats the current rate, contains
`refi_15yr` (term 180) iff `yearsRemaining > 15` and the 15-year rate beats
the current rate, and contains `refi_30yr` (term 360) iff the 30-year rate
beats the current rate. -/
theorem generateScenarios_inclusion_spec (input : EngineInput) :
    ((generateScenarios input).headD emptyScenario).id = ScenarioId.stay_current ∧
    ((∃ s ∈ generateScenarios input, s.id = ScenarioId.refi_same_term) ↔
      input.refiRateSameTerm < input.currentAnnualRate) ∧
    ((∃ s ∈ generateScenarios input, s.id = ScenarioId.refi_15yr) ↔
      (15 < input.yearsRemaining ∧ input.refiRate15yr < input.currentAnnualRate)) ∧
    (∀ s ∈ generateScenarios input, s.id = ScenarioId.refi_15yr → s.termMonths = 180) ∧
    ((∃ s ∈ generateScenarios input, s.id = ScenarioId.refi_30yr) ↔
      input.refiRate30yr < input.currentAnnualRate) ∧
    (∀ s ∈ generateScenarios input, s.id = ScenarioId.refi_30yr → s.termMonths = 360) := by
  by_cases h1 : input.refiRateSameTerm < input.currentAnnualRate <;>
    by_cases h2 : 15 < input.yearsRemaining ∧
      input.refiRate15yr < input.currentAnnualRate <;>
    by_cases h3 : input.refiRate30yr < input.currentAnnualRate <;>
    simp [generateScenarios, h1, h2, h3, buildScenario_id, buildScenario_termMonths,
      baselineParams, sameTermParams, refi15Params, refi30Params,
      apply_ite ScenarioResult.id, apply_ite ScenarioResult.termMonths]

-- ============================================================
-- C10: trueBreakEven accumulation bound
-- ============================================================

theorem tbeGo_some (closingCosts : ℚ) :
    ∀ (l : List (AmortizationRow × AmortizationRow)) (cum : ℚ) (m : ℕ) (v : ℚ),
      tbeGo closingCosts l cum m = some v →
      ∃ j : ℕ, v = (j : ℚ) ∧ m + 1 ≤ j ∧ j ≤ m + l.length := by
  intro l
  induction l with
  | nil =>
    intro cum m v h
    simp [tbeGo] at h
  | cons p rest ih =>
    intro cum m v h
    obtain ⟨b, r⟩ := p
    simp only [tbeGo] at h
    by_cases hc : closingCosts ≤ cum + (b.interestPaid - r.interestPaid)
    · rw [if_pos hc] at h
      refine ⟨m + 1, ?_, le_refl _, ?_⟩
      · exact (Option.some_injective ℚ h).symm
      · simp only [List.length_cons]
        omega
    · rw [if_neg hc] at h
      obtain ⟨j, hj, hj1, hj2⟩ := ih _ _ _ h
      refine ⟨j, hj, by omega, ?_⟩
      simp only [List.length_cons]
      omega

/-- A row used for concrete break-even examples. -/
def tbeRow (i : ℚ) : AmortizationRow :=
  { month := 1, payment := 0, principalPaid := 0, interestPaid := i,
    remainingBalance := 0 }

/-- C10: for positive closing costs, `trueBreakEven` returns `none` or a
month `m` with `1 ≤ m ≤ min(horizonMonths, |baseline|, |refi|)` — interest
differences after the shorter schedule ends are never accumulated — and it
can return `none` even when the refi schedule is shorter than the horizon
(so horizon months remain past the refi payoff). -/
theorem trueBreakEven_bound_spec :
    (∀ (bs rs : List AmortizationRow) (closingCosts : ℚ) (h : ℤ),
      0 < closingCosts →
      trueBreakEven bs rs closingCosts h = none ∨
      ∃ m : ℕ, trueBreakEven bs rs closingCosts h = some (m : ℚ) ∧ 1 ≤ m ∧
        (m : ℤ) ≤ min h (min (bs.length : ℤ) (rs.length : ℤ))) ∧
    (trueBreakEven [tbeRow 5, tbeRow 5, tbeRow 5] [tbeRow 5] 10 5 = none ∧
      (([tbeRow 5] : List AmortizationRow).length : ℤ) < 5) := by
  constructor
  · intro bs rs closingCosts h hcc
    simp only [trueBreakEven, if_neg (not_le.mpr hcc)]
    rcases hres : tbeGo closingCosts
        ((bs.zip rs).take (min h (min (bs.length : ℤ) (rs.length : ℤ))).toNat) 0 0 with
      _ | v
    · exact Or.inl rfl
    · obtain ⟨j, hj, hj1, hj2⟩ := tbeGo_some closingCosts _ _ _ _ hres
      refine Or.inr ⟨j, by rw [hj], hj1, ?_⟩
      have hlen := List.length_take_le
        ((min h (min (bs.length : ℤ) (rs.length : ℤ))).toNat) (bs.zip rs)
      omega
  · constructor
    · norm_num [trueBreakEven, tbeGo, tbeRow]
    · norm_num

/-- Witness for C10 at concrete schedules. -/
theorem trueBreakEven_bound_spec_witness :
    trueBreakEven [tbeRow 5] [tbeRow 0] 3 1 = none ∨
      ∃ m : ℕ, trueBreakEven [tbeRow 5] [tbeRow 0] 3 1 = some (m : ℚ) ∧ 1 ≤ m ∧
        (m : ℤ) ≤ min 1 (min (([tbeRow 5] : List AmortizationRow).length : ℤ)
          (([tbeRow 0] : List AmortizationRow).length : ℤ)) :=
  trueBreakEven_bound_spec.1 [tbeRow 5] [tbeRow 0] 3 1 (by norm_num)

-- ============================================================
-- C6: IRR monotonicity
-- ============================================================

theorem annuity_pos {r : ℚ} (hr1 : (-1 : ℚ) < r) (hr0 : r ≠ 0) {k : ℤ}
    (hk : 1 ≤ k) : 0 < (1 - ((1 + r)⁻¹) ^ k.toNat) / r := by
  have hkn : k.toNat ≠ 0 := by omega
  rcases lt_or_gt_of_ne hr0 with hneg | hpos
  · have h1 : (0 : ℚ) < 1 + r := by linarith
    have h2 : 1 + r < 1 := by linarith
    have h3 : (1 : ℚ) < (1 + r)⁻¹ := (one_lt_inv₀ h1).mpr h2
    have h4 : (1 : ℚ) < ((1 + r)⁻¹) ^ k.toNat := one_lt_pow₀ h3 hkn
    exact div_pos_of_neg_of_neg (by linarith) hneg
  · have h1 : (0 : ℚ) < 1 + r := by linarith
    have h2 : (1 + r)⁻¹ < 1 := by
      rw [inv_lt_one₀ h1]
      linarith
    have h3 : (0 : ℚ) ≤ (1 + r)⁻¹ := le_of_lt (inv_pos.mpr h1)
    have h4 : ((1 + r)⁻¹) ^ k.toNat < 1 := pow_lt_one₀ h3 h2 hkn
    exact div_pos (by linarith) hpos

/-- C6 (amended): at every discount rate `r > -1`, the NPV of the refi
cash-flow model is strictly decreasing in fees and (for a non-empty payment
window) strictly increasing in the monthly savings; hence the exact root of
`NPV` moves monotonically.  The value returned by the bisection solver is
not strictly monotone because of its `|NPV| < 0.01` early-stopping
tolerance (see the counterexample). -/
theorem npv_monotone_spec :
    ∀ (r fees fees2 refiPmt refiPmt2 basePmt : ℚ) (refiTerm : ℤ)
      (balSaved : ℚ) (N : ℤ), (-1 : ℚ) < r →
      (fees < fees2 →
        npv r fees2 refiPmt basePmt refiTerm balSaved N <
          npv r fees refiPmt basePmt refiTerm balSaved N) ∧
      (1 ≤ refiTerm → 1 ≤ N → refiPmt2 < refiPmt →
        npv r fees refiPmt basePmt refiTerm balSaved N <
          npv r fees refiPmt2 basePmt refiTerm balSaved N) := by
  intro r fees fees2 refiPmt refiPmt2 basePmt refiTerm balSaved N hr1
  constructor
  · intro hf
    by_cases hr0 : r = 0
    · simp only [npv, if_pos hr0]
      linarith
    · simp only [npv, if_neg hr0]
      linarith
  · intro ht hN hp
    have hk : 1 ≤ min refiTerm N := le_min ht hN
    by_cases hr0 : r = 0
    · simp only [npv, if_pos hr0]
      have hkq : (1 : ℚ) ≤ ((min refiTerm N : ℤ) : ℚ) := by exact_mod_cast hk
      nlinarith
    · have hknot : ¬(min refiTerm N ≤ 0) := by omega
      simp only [npv, if_neg hr0, if_neg hknot]
      have hA := annuity_pos hr1 hr0 hk
      nlinarith [hA]

set_option maxRecDepth 10000 in
unseal Rat.mul Rat.add Rat.sub Rat.inv in
/-- C6 counterexample: two inputs differing only in fees (1 vs 1.005) and
two inputs differing only in monthly savings (1.96 vs 1.9698) make the
solver stop at the same first bisection midpoint (|NPV| < 0.01), so
`computeIRR` returns the same finite rate — neither strictly decreasing in
fees nor strictly increasing in savings. -/
theorem computeIRR_monotone_counterexample :
    (1 : ℚ) < 201/200 ∧ (49/25 : ℚ) - 0 < (9849/5000 : ℚ) - 0 ∧
    computeIRR 1 0 (49/25) 1 0 1 = IRROutcome.rate ((49/25 : ℚ) ^ (12 : ℕ) - 1) ∧
    computeIRR (201/200) 0 (49/25) 1 0 1 =
      IRROutcome.rate ((49/25 : ℚ) ^ (12 : ℕ) - 1) ∧
    computeIRR 1 0 (9849/5000) 1 0 1 =
      IRROutcome.rate ((49/25 : ℚ) ^ (12 : ℕ) - 1) := by
  refine ⟨by norm_num, by norm_num, ?_, ?_, ?_⟩ <;> decide

/-- Witness for C6 at concrete arguments. -/
theorem npv_monotone_spec_witness :
    npv 1 2 0 1 1 0 1 < npv 1 1 0 1 1 0 1 ∧
      npv 1 1 1 2 1 0 1 < npv 1 1 0 2 1 0 1 :=
  ⟨(npv_monotone_spec 1 1 2 0 0 1 1 0 1 (by norm_num)).1 (by norm_num),
   (npv_monotone_spec 1 1 1 1 0 2 1 0 1 (by norm_num)).2 (by norm_num)
     (by norm_num) (by norm_num)⟩

-- ============================================================
-- C3: verdict color classification
-- ============================================================

/-- Color classification exactly as the claim words it (refinement-side
definition, to be compared with `determineColor` from the source): RED when
break-even is null, savings are negative, or break-even exceeds the
horizon; GREEN when breakEven/horizon < 0.33 and savings exceed
200 dollars per horizon-year; YELLOW when breakEven/horizon < 0.67 and
savings exceed 50 dollars per horizon-year; RED otherwise. -/
def specDetermineColor (breakEven : Option ℚ) (netSavings horizonMonths : ℚ) :
    VerdictColor :=
  match breakEven with
  | none => .red
  | some be =>
    if netSavings < 0 then .red
    else if horizonMonths < be then .red
    else if be / horizonMonths < 33/100 ∧ 200 * (horizonMonths / 12) < netSavings
      then .green
    else if be / horizonMonths < 67/100 ∧ 50 * (horizonMonths / 12) < netSavings
      then .yellow
    else .red

theorem determineColor_eq_spec (be : Option ℚ) (ns h : ℚ) :
    determineColor be ns h = specDetermineColor be ns h := by
  cases be with
  | none => rfl
  | some q => rfl

/-- C3: for a positive horizon, `generateVerdict` is unconditionally RED
with null break-even, zero delta and zero savings when the winner is the
baseline; otherwise its color is exactly the claim's classification of
(interest break-even falling back to cashflow break-even, net savings,
horizon).  The positivity hypothesis marks the JS domain: at
`horizonMonths = 0` the JS ratio is NaN and the rational model diverges
from float semantics. -/
theorem generateVerdict_classification_spec (winner baseline : ScenarioResult)
    (h : ℚ) (hpos : 0 < h) :
    (winner.id = ScenarioId.stay_current →
      (generateVerdict winner baseline h).color = VerdictColor.red ∧
      (generateVerdict winner baseline h).breakEvenMonths = none ∧
      (generateVerdict winner baseline h).monthlyDelta = 0 ∧
      (generateVerdict winner baseline h).netSavings = 0) ∧
    (winner.id ≠ ScenarioId.stay_current →
      (generateVerdict winner baseline h).color =
        specDetermineColor
          (match winner.interestBreakEvenMonths with
            | some q => some q
            | none => winner.cashflowBreakEvenMonths)
          winner.netSavingsAtHorizon h) := by
  constructor
  · intro hid
    simp [generateVerdict, hid]
  · intro hid
    simp only [generateVerdict, if_neg hid]
    exact determineColor_eq_spec _ _ _

/-- Winner record used for the C3 witness. -/
def c3Winner : ScenarioResult :=
  { emptyScenario with
    id := ScenarioId.refi_same_term
    interestBreakEvenMonths := some 3
    netSavingsAtHorizon := 500 }

/-- Witness for C3 at a concrete winner and horizon. -/
theorem generateVerdict_classification_spec_witness :
    (generateVerdict c3Winner emptyScenario 12).color =
      specDetermineColor (some 3) 500 12 := by
  have h := (generateVerdict_classification_spec c3Winner emptyScenario 12
    (by norm_num)).2 (by simp [c3Winner, emptyScenario])
  simpa [c3Winner, emptyScenario] using h

-- ============================================================
-- Schedule walkers and rounding-drift analysis (for C8 and C4)
-- ============================================================

/-- One non-final schedule step: interest, principal, new balance with the
negative-balance clamp — exactly the loop body of `amortizationSchedule`
for months before the last. -/
def stepBal (pmt r b : ℚ) : ℚ :=
  let interest := round2 (b * r)
  let principalPaid := round2 (pmt - interest)
  let bal1 := round2 (b - principalPaid)
  if bal1 < 0 then 0 else bal1

/-- Balance after `h` non-final schedule steps. -/
def balAfter (pmt r : ℚ) : ℚ → ℕ → ℚ
  | b, 0 => b
  | b, h + 1 => balAfter pmt r (stepBal pmt r b) h

/-- Whether none of the first `h` non-final steps hits the negative-balance
clamp. -/
def noClampUpTo (pmt r : ℚ) : ℚ → ℕ → Bool
  | _, 0 => true
  | b, h + 1 =>
    let interest := round2 (b * r)
    let principalPaid := round2 (pmt - interest)
    let bal1 := round2 (b - principalPaid)
    decide (0 ≤ bal1) && noClampUpTo pmt r bal1 h

/-- Sum of `principalPaid` over a schedule (the quantity in C8). -/
def sumPrincipalPaid (schedule : List AmortizationRow) : ℚ :=
  (schedule.map (fun row => row.principalPaid)).sum

theorem amortAux_zero (pmt r bal : ℚ) (m : ℤ) : amortAux pmt r bal m 0 = [] := rfl

theorem amortAux_succ (pmt r bal : ℚ) (m : ℤ) (fuel : ℕ) :
    amortAux pmt r bal m (fuel + 1) =
      { month := m
        payment := if fuel = 0
          then round2 ((if fuel = 0 then round2 bal
            else round2 (pmt - round2 (bal * r))) + round2 (bal * r))
          else pmt
        principalPaid := if fuel = 0 then round2 bal
          else round2 (pmt - round2 (bal * r))
        interestPaid := round2 (bal * r)
        remainingBalance :=
          if round2 (bal - (if fuel = 0 then round2 bal
              else round2 (pmt - round2 (bal * r)))) < 0 then 0
          else round2 (bal - (if fuel = 0 then round2 bal
            else round2 (pmt - round2 (bal * r)))) } ::
      amortAux pmt r
        (if round2 (bal - (if fuel = 0 then round2 bal
            else round2 (pmt - round2 (bal * r)))) < 0 then 0
          else round2 (bal - (if fuel = 0 then round2 bal
            else round2 (pmt - round2 (bal * r)))))
        (m + 1) fuel := rfl

theorem amortAux_length (pmt r : ℚ) :
    ∀ (fuel : ℕ) (bal : ℚ) (m : ℤ), (amortAux pmt r bal m fuel).length = fuel := by
  intro fuel
  induction fuel with
  | zero => intro bal m; rfl
  | succ k ih =>
    intro bal m
    rw [amortAux_succ, List.length_cons, ih]

theorem amortAux_getLast (pmt r : ℚ) :
    ∀ (fuel : ℕ) (bal : ℚ) (m : ℤ), 1 ≤ fuel →
      ((amortAux pmt r bal m fuel).getLast?).map
        (fun row => row.remainingBalance) = some 0 := by
  intro fuel
  induction fuel with
  | zero => intro bal m h; omega
  | succ k ih =>
    intro bal m _
    rcases Nat.eq_zero_or_pos k with hk | hk
    · subst hk
      rw [amortAux_succ]
      simp [amortAux_zero, round2_sub_round2 bal]
    · obtain ⟨j, rfl⟩ : ∃ j, k = j + 1 := ⟨k - 1, by omega⟩
      rw [amortAux_succ, amortAux_succ, List.getLast?_cons_cons, ← amortAux_succ]
      exact ih _ (m + 1) hk

theorem noClampUpTo_succ_iff (pmt r b : ℚ) (h : ℕ) :
    noClampUpTo pmt r b (h + 1) = true ↔
      (0 ≤ round2 (b - round2 (pmt - round2 (b * r))) ∧
        noClampUpTo pmt r (round2 (b - round2 (pmt - round2 (b * r)))) h = true) := by
  simp [noClampUpTo]

/-- Telescoping: on a clamp-free run starting at a whole-cent balance, the
principal paid by the remaining rows is exactly the incoming balance. -/
theorem amortAux_sumPrinc_noclamp (pmt r : ℚ) :
    ∀ (fuel : ℕ) (bal : ℚ) (m : ℤ), 1 ≤ fuel → IsCent bal →
      noClampUpTo pmt r bal (fuel - 1) = true →
      sumPrincipalPaid (amortAux pmt r bal m fuel) = bal := by
  intro fuel
  induction fuel with
  | zero => intro bal m h; omega
  | succ k ih =>
    intro bal m _ hcent hnc
    rcases Nat.eq_zero_or_pos k with hk | hk
    · subst hk
      rw [amortAux_succ]
      simp [amortAux_zero, sumPrincipalPaid, round2_eq_self hcent]
    · obtain ⟨j, rfl⟩ : ∃ j, k = j + 1 := ⟨k - 1, by omega⟩
      have hne : (j + 1 : ℕ) ≠ 0 := Nat.succ_ne_zero j
      rw [amortAux_succ]
      simp only [if_neg hne, sumPrincipalPaid, List.map_cons, List.sum_cons]
      have hnc1 : noClampUpTo pmt r bal (j + 1) = true := by
        simpa using hnc
      obtain ⟨h0, htail⟩ := (noClampUpTo_succ_iff pmt r bal j).mp hnc1
      have hbal1 : round2 (bal - round2 (pmt - round2 (bal * r))) =
          bal - round2 (pmt - round2 (bal * r)) :=
        round2_eq_self (hcent.sub (isCent_round2 _))
      have hnotneg : ¬ round2 (bal - round2 (pmt - round2 (bal * r))) < 0 :=
        not_lt.mpr h0
      rw [if_neg hnotneg]
      have hrec := ih (round2 (bal - round2 (pmt - round2 (bal * r)))) (m + 1)
        (by omega) (isCent_round2 _) (by simpa using htail)
      simp only [sumPrincipalPaid] at hrec
      rw [hrec, hbal1]
      ring

/-- C8 (amended): the schedule has exactly `n` rows, the final row's
remaining balance is `0` (for `n ≥ 1`), and — provided the balance never
hits the negative-balance clamp before the final row — the sum of
`principalPaid` equals the principal within the stated tolerance of
1 cent × n (in fact within half a cent). -/
theorem amortizationSchedule_spec (P rate : ℚ) (n : ℕ) :
    (amortizationSchedule P rate (n : ℤ)).length = n ∧
    (1 ≤ n → ((amortizationSchedule P rate (n : ℤ)).getLast?).map
      (fun row => row.remainingBalance) = some 0) ∧
    (1 ≤ n →
      noClampUpTo (monthlyPayment P rate (n : ℤ)) (rate / 12) P (n - 1) = true →
      |sumPrincipalPaid (amortizationSchedule P rate (n : ℤ)) - P| ≤ (n : ℚ) / 100) := by
  have htn : ((n : ℤ)).toNat = n := by omega
  refine ⟨?_, ?_, ?_⟩
  · rw [amortizationSchedule, htn, amortAux_length]
  · intro h1
    rw [amortizationSchedule, htn]
    exact amortAux_getLast _ _ n P 1 h1
  · intro h1 hnc
    rw [amortizationSchedule, htn]
    obtain ⟨j, rfl⟩ : ∃ j, n = j + 1 := ⟨n - 1, by omega⟩
    have hcast : (1 : ℚ) ≤ ((j + 1 : ℕ) : ℚ) := by
      exact_mod_cast Nat.one_le_iff_ne_zero.mpr (Nat.succ_ne_zero j)
    rcases Nat.eq_zero_or_pos j with hj | hj
    · subst hj
      rw [amortAux_succ]
      simp only [if_pos rfl, amortAux_zero, sumPrincipalPaid, List.map_cons,
        List.map_nil, List.sum_cons, List.sum_nil, add_zero]
      have := abs_round2_sub P
      have habs : |round2 P - P| ≤ 1/200 := by
        have h200 : round2 P - P ≤ 1/200 := round2_sub_le P
        have h200b : -(1/200) < round2 P - P := lt_round2_sub P
        rw [abs_le]
        constructor <;> linarith
      calc |round2 P - P| ≤ 1/200 := habs
        _ ≤ ((1 : ℕ) : ℚ) / 100 := by norm_num
    · obtain ⟨i, rfl⟩ : ∃ i, j = i + 1 := ⟨j - 1, by omega⟩
      have hne : (i + 1 : ℕ) ≠ 0 := Nat.succ_ne_zero i
      rw [amortAux_succ]
      simp only [if_neg hne, sumPrincipalPaid, List.map_cons, List.sum_cons]
      have hnc1 : noClampUpTo (monthlyPayment P rate ((i + 1 + 1 : ℕ) : ℤ))
          (rate / 12) P (i + 1) = true := by
        simpa using hnc
      obtain ⟨h0, htail⟩ := (noClampUpTo_succ_iff _ _ P i).mp hnc1
      have hnotneg : ¬ round2 (P - round2 (monthlyPayment P rate ((i + 1 + 1 : ℕ) : ℤ)
          - round2 (P * (rate / 12)))) < 0 := not_lt.mpr h0
      rw [if_neg hnotneg]
      have hrec := amortAux_sumPrinc_noclamp
        (monthlyPayment P rate ((i + 1 + 1 : ℕ) : ℤ)) (rate / 12) (i + 1)
        (round2 (P - round2 (monthlyPayment P rate ((i + 1 + 1 : ℕ) : ℤ)
          - round2 (P * (rate / 12))))) (1 + 1) (by omega) (isCent_round2 _)
        (by simpa using htail)
      simp only [sumPrincipalPaid] at hrec
      rw [hrec]
      have hub := round2_sub_le (P - round2 (monthlyPayment P rate
        ((i + 1 + 1 : ℕ) : ℤ) - round2 (P * (rate / 12))))
      have hlb := lt_round2_sub (P - round2 (monthlyPayment P rate
        ((i + 1 + 1 : ℕ) : ℤ) - round2 (P * (rate / 12))))
      rw [abs_le]
      constructor
      · nlinarith
      · nlinarith

theorem balAfter_succ (pmt r b : ℚ) (h : ℕ) :
    balAfter pmt r b (h + 1) = balAfter pmt r (stepBal pmt r b) h := rfl

theorem isCent_stepBal (pmt r b : ℚ) : IsCent (stepBal pmt r b) := by
  rw [stepBal]
  split_ifs
  · exact isCent_zero
  · exact isCent_round2 _

theorem isCent_balAfter (pmt r : ℚ) :
    ∀ (h : ℕ) (b : ℚ), IsCent b → IsCent (balAfter pmt r b h) := by
  intro h
  induction h with
  | zero => intro b hb; exact hb
  | succ i ih =>
    intro b _
    rw [balAfter_succ]
    exact ih _ (isCent_stepBal pmt r b)

theorem isCent_monthlyPayment (P rate : ℚ) (t : ℤ) :
    IsCent (monthlyPayment P rate t) := by
  rw [monthlyPayment]
  split_ifs
  · exact isCent_zero
  · exact isCent_zero
  · exact isCent_round2 _
  · exact isCent_round2 _

/-- Each non-final row's remaining balance is the walker balance. -/
theorem amortAux_getElem_balAfter (pmt r : ℚ) :
    ∀ (j fuel : ℕ) (bal : ℚ) (m : ℤ), j + 1 < fuel →
      (((amortAux pmt r bal m fuel)[j]?).map
        (fun row => row.remainingBalance)) = some (balAfter pmt r bal (j + 1)) := by
  intro j
  induction j with
  | zero =>
    intro fuel bal m hj
    obtain ⟨k, rfl⟩ : ∃ k, fuel = k + 1 := ⟨fuel - 1, by omega⟩
    have hk0 : k ≠ 0 := by omega
    rw [amortAux_succ]
    simp only [if_neg hk0, List.getElem?_cons_zero, Option.map_some]
    rw [balAfter_succ]
    rfl
  | succ i ih =>
    intro fuel bal m hj
    obtain ⟨k, rfl⟩ : ∃ k, fuel = k + 1 := ⟨fuel - 1, by omega⟩
    have hk0 : k ≠ 0 := by omega
    rw [amortAux_succ]
    simp only [if_neg hk0, List.getElem?_cons_succ]
    rw [ih k _ (m + 1) (by omega), balAfter_succ]
    rfl

/-- Every row's remaining balance is a whole number of cents. -/
theorem amortAux_rowBal_cent (pmt r : ℚ) :
    ∀ (fuel : ℕ) (bal : ℚ) (m : ℤ) (row : AmortizationRow),
      row ∈ amortAux pmt r bal m fuel → IsCent row.remainingBalance := by
  intro fuel
  induction fuel with
  | zero => intro bal m row h; simp [amortAux_zero] at h
  | succ k ih =>
    intro bal m row h
    rw [amortAux_succ] at h
    rcases List.mem_cons.mp h with hhead | htail
    · subst hhead
      dsimp only
      split_ifs <;> first
        | exact isCent_zero
        | exact isCent_round2 _
    · exact ih _ (m + 1) row htail

/-- Partial interest sums on a clamp-free cent run: the interest over the
first `h` (non-final) rows is `pmt·h − bal + balAfter h`. -/
theorem amortAux_interest_take (pmt r : ℚ) (hpmt : IsCent pmt) :
    ∀ (h fuel : ℕ) (bal : ℚ) (m : ℤ), h < fuel → IsCent bal →
      noClampUpTo pmt r bal h = true →
      ((((amortAux pmt r bal m fuel).take h).map
        (fun row => row.interestPaid)).sum) =
        pmt * (h : ℚ) - bal + balAfter pmt r bal h := by
  intro h
  induction h with
  | zero =>
    intro fuel bal m _ _ _
    simp [balAfter]
  | succ i ih =>
    intro fuel bal m hlt hcent hnc
    obtain ⟨k, rfl⟩ : ∃ k, fuel = k + 1 := ⟨fuel - 1, by omega⟩
    have hk0 : k ≠ 0 := by omega
    rw [amortAux_succ]
    simp only [if_neg hk0, List.take_succ_cons, List.map_cons, List.sum_cons]
    obtain ⟨h0, htail⟩ := (noClampUpTo_succ_iff pmt r bal i).mp hnc
    have hnotneg : ¬ round2 (bal - round2 (pmt - round2 (bal * r))) < 0 :=
      not_lt.mpr h0
    rw [if_neg hnotneg]
    rw [ih k _ (m + 1) (by omega) (isCent_round2 _) htail]
    have hstep : stepBal pmt r bal =
        round2 (bal - round2 (pmt - round2 (bal * r))) := by
      simp only [stepBal, if_neg hnotneg]
    rw [balAfter_succ, hstep]
    have hp : round2 (pmt - round2 (bal * r)) = pmt - round2 (bal * r) :=
      round2_eq_self (hpmt.sub (isCent_round2 _))
    have hb1 : round2 (bal - round2 (pmt - round2 (bal * r))) =
        bal - round2 (pmt - round2 (bal * r)) :=
      round2_eq_self (hcent.sub (isCent_round2 _))
    rw [hb1, hp]
    push_cast
    ring

theorem buildScenario_interest_eq (p : BuildParams) :
    (buildScenario p).interestWithinHorizon =
      totalInterestWithinMonths
        (amortizationSchedule p.principal p.rate p.termMonths)
        (min p.horizonMonths p.termMonths) := rfl

theorem buildScenario_netCost_eq (p : BuildParams) :
    (buildScenario p).netCostAtHorizon =
      round2 (round2 (p.fees +
        round2 (monthlyPayment p.principal p.rate p.termMonths *
          ((min p.horizonMonths p.termMonths : ℤ) : ℚ))) +
        (if p.termMonths ≤ p.horizonMonths then 0
         else remainingBalanceAtMonth
           (amortizationSchedule p.principal p.rate p.termMonths)
           p.horizonMonths)) := rfl

theorem buildScenario_netSavings_eq (p : BuildParams) :
    (buildScenario p).netSavingsAtHorizon =
      round2 (round2 (if 0 < p.baselineSchedule.length then
          round2 (totalInterestWithinMonths p.baselineSchedule p.horizonMonths)
        else 0) -
        round2 ((buildScenario p).interestWithinHorizon + p.fees)) := rfl

/-- On a clamp-free cent run with the horizon strictly inside the term, the
net cost decomposes as fees + principal + interest-within-horizon. -/
theorem buildScenario_netCost_decomp (p : BuildParams)
    (hP : IsCent p.principal) (hF : IsCent p.fees)
    (hh : 1 ≤ p.horizonMonths) (hlt : p.horizonMonths < p.termMonths)
    (hnc : noClampUpTo (monthlyPayment p.principal p.rate p.termMonths)
      (p.rate / 12) p.principal p.horizonMonths.toNat = true) :
    (buildScenario p).netCostAtHorizon =
      p.fees + p.principal + (buildScenario p).interestWithinHorizon ∧
    IsCent (buildScenario p).interestWithinHorizon := by
  have hk : min p.horizonMonths p.termMonths = p.horizonMonths :=
    min_eq_left (le_of_lt hlt)
  have hpmtc : IsCent (monthlyPayment p.principal p.rate p.termMonths) :=
    isCent_monthlyPayment _ _ _
  have hlen : (amortizationSchedule p.principal p.rate p.termMonths).length =
      p.termMonths.toNat := by
    rw [amortizationSchedule, amortAux_length]
  have hcastlen : ((p.termMonths.toNat : ℤ)) = p.termMonths := by omega
  -- the take-index inside totalInterestWithinMonths is the horizon
  have hmin2 : min (min p.horizonMonths p.termMonths)
      ((amortizationSchedule p.principal p.rate p.termMonths).length : ℤ) =
      p.horizonMonths := by
    rw [hk, hlen, hcastlen]
    exact min_eq_left (le_of_lt hlt)
  -- interest within horizon via the walker
  have htoNatlt : p.horizonMonths.toNat < p.termMonths.toNat := by omega
  have hinterest : (buildScenario p).interestWithinHorizon =
      monthlyPayment p.principal p.rate p.termMonths *
        ((p.horizonMonths.toNat : ℕ) : ℚ) - p.principal +
        balAfter (monthlyPayment p.principal p.rate p.termMonths) (p.rate / 12)
          p.principal p.horizonMonths.toNat := by
    rw [buildScenario_interest_eq, totalInterestWithinMonths, hmin2]
    rw [amortizationSchedule]
    rw [amortAux_interest_take _ _ hpmtc _ _ _ _ htoNatlt hP hnc]
    apply round2_eq_self
    exact ((hpmtc.mul_int (p.horizonMonths.toNat : ℤ)).sub hP).add
      (isCent_balAfter _ _ _ _ hP)
  have hbalcent : IsCent (balAfter (monthlyPayment p.principal p.rate p.termMonths)
      (p.rate / 12) p.principal p.horizonMonths.toNat) :=
    isCent_balAfter _ _ _ _ hP
  have hintc : IsCent (buildScenario p).interestWithinHorizon := by
    rw [hinterest]
    exact ((hpmtc.mul_int (p.horizonMonths.toNat : ℤ)).sub hP).add hbalcent
  refine ⟨?_, hintc⟩
  -- remaining balance at horizon via the walker
  have hj : (p.horizonMonths - 1).toNat + 1 = p.horizonMonths.toNat := by omega
  have hrem : remainingBalanceAtMonth
      (amortizationSchedule p.principal p.rate p.termMonths) p.horizonMonths =
      balAfter (monthlyPayment p.principal p.rate p.termMonths) (p.rate / 12)
        p.principal p.horizonMonths.toNat := by
    rw [remainingBalanceAtMonth.eq_def, if_neg (by omega : ¬ p.horizonMonths ≤ 0),
      if_neg (by rw [hlen, hcastlen]; omega)]
    rw [amortizationSchedule]
    rw [amortAux_getElem_balAfter _ _ _ _ _ _ (by omega), hj]
    rfl
  rw [buildScenario_netCost_eq, if_neg (not_le.mpr hlt), hrem, hk, hinterest]
  have h1 : round2 (monthlyPayment p.principal p.rate p.termMonths *
      ((p.horizonMonths : ℤ) : ℚ)) =
      monthlyPayment p.principal p.rate p.termMonths * ((p.horizonMonths : ℤ) : ℚ) :=
    round2_eq_self (hpmtc.mul_int p.horizonMonths)
  rw [h1]
  have h2 : round2 (p.fees + monthlyPayment p.principal p.rate p.termMonths *
      ((p.horizonMonths : ℤ) : ℚ)) =
      p.fees + monthlyPayment p.principal p.rate p.termMonths *
        ((p.horizonMonths : ℤ) : ℚ) :=
    round2_eq_self (hF.add (hpmtc.mul_int p.horizonMonths))
  rw [h2]
  rw [round2_eq_self ((hF.add (hpmtc.mul_int p.horizonMonths)).add hbalcent)]
  have hcast : ((p.horizonMonths.toNat : ℕ) : ℚ) = ((p.horizonMonths : ℤ) : ℚ) := by
    have : ((p.horizonMonths.toNat : ℤ)) = p.horizonMonths := by omega
    exact_mod_cast congrArg (fun z : ℤ => (z : ℚ)) this
  rw [hcast]
  ring

theorem isCent_totalInterest (s : List AmortizationRow) (k : ℤ) :
    IsCent (totalInterestWithinMonths s k) := isCent_round2 _

theorem isCent_remainingBalanceAtMonth (P rate : ℚ) (t k : ℤ) :
    IsCent (remainingBalanceAtMonth (amortizationSchedule P rate t) k) := by
  rw [remainingBalanceAtMonth.eq_def]
  split_ifs
  · rcases hs : amortizationSchedule P rate t with _ | ⟨row, rest⟩
    · exact isCent_zero
    · exact isCent_round2 _
  · exact isCent_zero
  · rcases hrow : (amortizationSchedule P rate t)[(k - 1).toNat]? with _ | row
    · exact isCent_zero
    · have hmem : row ∈ amortizationSchedule P rate t := by
        have hlt := List.getElem?_eq_some_iff.mp hrow
        obtain ⟨hbound, hget⟩ := hlt
        rw [← hget]
        exact List.getElem_mem hbound
      rw [amortizationSchedule] at hmem
      exact amortAux_rowBal_cent _ _ _ _ _ _ hmem

/-- The exact field identity: net cost = cash outflow + remaining balance,
with no rounding slack, for every built scenario. -/
theorem buildScenario_netCost_split (p : BuildParams) :
    (buildScenario p).netCostAtHorizon =
      (buildScenario p).cashOutflowWithinHorizon +
        (buildScenario p).remainingBalanceAtHorizon := by
  have hcash : IsCent (buildScenario p).cashOutflowWithinHorizon := isCent_round2 _
  have hrem : IsCent (buildScenario p).remainingBalanceAtHorizon := by
    rw [buildScenario_remBalance]
    split_ifs
    · exact isCent_zero
    · exact isCent_remainingBalanceAtMonth _ _ _ _
  exact round2_eq_self (hcash.add hrem)

/-- Value of `netSavingsAtHorizon` for a built scenario with whole-cent
fees and a non-empty baseline schedule. -/
theorem buildScenario_netSavings_value (p : BuildParams)
    (hlen : 0 < p.baselineSchedule.length) (hF : IsCent p.fees) :
    (buildScenario p).netSavingsAtHorizon =
      totalInterestWithinMonths p.baselineSchedule p.horizonMonths -
        (buildScenario p).interestWithinHorizon - p.fees := by
  have hic : IsCent (buildScenario p).interestWithinHorizon := by
    rw [buildScenario_interest_eq]
    exact isCent_totalInterest _ _
  rw [buildScenario_netSavings_eq, if_pos hlen,
    round2_eq_self (isCent_totalInterest _ _),
    round2_eq_self (isCent_totalInterest _ _),
    round2_eq_self (hic.add hF),
    round2_eq_self ((isCent_totalInterest _ _).sub (hic.add hF))]
  ring

theorem mem_ite_singleton {α : Type} {c : Prop} [Decidable c] {s x : α}
    (h : s ∈ (if c then [x] else [])) : c ∧ s = x := by
  split_ifs at h with hc
  · exact ⟨hc, by simpa using h⟩
  · simp at h

theorem warnTag_fields (c1 : Prop) [Decidable c1] (c2 : Prop) [Decidable c2]
    (sc : ScenarioResult) (w1 w2 : List String) :
    (if c1 then (if c2 then { sc with warnings := w1 }
        else { sc with warnings := w2 }) else sc).netCostAtHorizon =
      sc.netCostAtHorizon ∧
    (if c1 then (if c2 then { sc with warnings := w1 }
        else { sc with warnings := w2 }) else sc).cashOutflowWithinHorizon =
      sc.cashOutflowWithinHorizon ∧
    (if c1 then (if c2 then { sc with warnings := w1 }
        else { sc with warnings := w2 }) else sc).remainingBalanceAtHorizon =
      sc.remainingBalanceAtHorizon ∧
    (if c1 then (if c2 then { sc with warnings := w1 }
        else { sc with warnings := w2 }) else sc).netSavingsAtHorizon =
      sc.netSavingsAtHorizon := by
  split_ifs <;> exact ⟨rfl, rfl, rfl, rfl⟩

/-- C4 (amended): `netCostAtHorizon = cashOutflowWithinHorizon +
remainingBalanceAtHorizon` holds exactly for every generated scenario; and
when the balance and closing costs are whole cents, the horizon is at least
one month and strictly shorter than every candidate term, and no schedule
clamps to zero within the horizon, `netSavingsAtHorizon` equals the
baseline's `netCostAtHorizon` minus the scenario's `netCostAtHorizon`
exactly.  (Without these conditions the two differ by the rounding drift
absorbed in a schedule's final payment — see the counterexample.) -/
theorem generateScenarios_netSavings_spec (input : EngineInput) (N T : ℤ)
    (hNdef : N = input.horizonOverrideMonths.getD (jsRound (input.yearsRemaining * 12)))
    (hTdef : T = jsRound (input.yearsRemaining * 12))
    (hB : IsCent input.remainingBalance) (hF : IsCent input.closingCosts)
    (hN : 1 ≤ N) (hbase : N < T)
    (h15t : 15 < input.yearsRemaining ∧
      input.refiRate15yr < input.currentAnnualRate → N < 180)
    (h30t : input.refiRate30yr < input.currentAnnualRate → N < 360)
    (hnc0 : noClampUpTo (monthlyPayment input.remainingBalance
        input.currentAnnualRate T) (input.currentAnnualRate / 12)
      input.remainingBalance N.toNat = true)
    (hnc1 : input.refiRateSameTerm < input.currentAnnualRate →
      noClampUpTo (monthlyPayment input.remainingBalance
          input.refiRateSameTerm T) (input.refiRateSameTerm / 12)
        input.remainingBalance N.toNat = true)
    (hnc2 : 15 < input.yearsRemaining ∧
        input.refiRate15yr < input.currentAnnualRate →
      noClampUpTo (monthlyPayment input.remainingBalance
          input.refiRate15yr 180) (input.refiRate15yr / 12)
        input.remainingBalance N.toNat = true)
    (hnc3 : input.refiRate30yr < input.currentAnnualRate →
      noClampUpTo (monthlyPayment input.remainingBalance
          input.refiRate30yr 360) (input.refiRate30yr / 12)
        input.remainingBalance N.toNat = true) :
    (∀ s ∈ generateScenarios input,
      s.netCostAtHorizon = s.cashOutflowWithinHorizon +
        s.remainingBalanceAtHorizon) ∧
    (∀ s ∈ generateScenarios input,
      s.netSavingsAtHorizon =
        ((generateScenarios input).headD emptyScenario).netCostAtHorizon -
          s.netCostAtHorizon) := by
  subst hNdef
  subst hTdef
  constructor
  · intro s hs
    simp only [generateScenarios, List.mem_cons, List.mem_append] at hs
    rcases hs with rfl | (hs | hs) | hs
    · exact buildScenario_netCost_split _
    · obtain ⟨h1, rfl⟩ := mem_ite_singleton hs
      exact buildScenario_netCost_split _
    · obtain ⟨h2, rfl⟩ := mem_ite_singleton hs
      exact buildScenario_netCost_split _
    · obtain ⟨h3, rfl⟩ := mem_ite_singleton hs
      split_ifs <;> exact buildScenario_netCost_split _
  · have hdecompb := buildScenario_netCost_decomp (baselineParams input)
      hB isCent_zero hN hbase hnc0
    have hheadNC : ((generateScenarios input).headD emptyScenario).netCostAtHorizon =
        input.remainingBalance +
          (buildScenario (baselineParams input)).interestWithinHorizon := by
      have h0 : (buildScenario (baselineParams input)).netCostAtHorizon =
          0 + input.remainingBalance +
            (buildScenario (baselineParams input)).interestWithinHorizon :=
        hdecompb.1
      rw [zero_add] at h0
      exact h0
    have hintb : (buildScenario (baselineParams input)).interestWithinHorizon =
        totalInterestWithinMonths
          (amortizationSchedule input.remainingBalance input.currentAnnualRate
            (jsRound (input.yearsRemaining * 12)))
          (input.horizonOverrideMonths.getD (jsRound (input.yearsRemaining * 12))) := by
      rw [buildScenario_interest_eq]
      dsimp only [baselineParams]
      rw [min_eq_left (le_of_lt hbase)]
    have hlen : 0 < (amortizationSchedule input.remainingBalance
        input.currentAnnualRate (jsRound (input.yearsRemaining * 12))).length := by
      rw [amortizationSchedule, amortAux_length]
      omega
    intro s hs
    simp only [generateScenarios, List.mem_cons, List.mem_append] at hs
    rcases hs with rfl | (hs | hs) | hs
    · have hd : ((generateScenarios input).headD emptyScenario) =
        ({ buildScenario (baselineParams input) with
            monthlyDelta := 0
            netSavingsAtHorizon := 0
            cashflowBreakEvenMonths := none
            interestBreakEvenMonths := none } : ScenarioResult) := rfl
      rw [hd, sub_self]
    · obtain ⟨h1, rfl⟩ := mem_ite_singleton hs
      have hdec := buildScenario_netCost_decomp
        (sameTermParams input
          (buildScenario (baselineParams input)).monthlyPayment
          (amortizationSchedule input.remainingBalance input.currentAnnualRate
            (jsRound (input.yearsRemaining * 12))))
        hB hF hN hbase (hnc1 h1)
      rw [buildScenario_netSavings_value _ hlen hF, hdec.1, hheadNC, hintb]
      dsimp only [sameTermParams]
      ring
    · obtain ⟨h2, rfl⟩ := mem_ite_singleton hs
      have hdec := buildScenario_netCost_decomp
        (refi15Params input
          (buildScenario (baselineParams input)).monthlyPayment
          (amortizationSchedule input.remainingBalance input.currentAnnualRate
            (jsRound (input.yearsRemaining * 12))))
        hB hF hN (h15t h2) (hnc2 h2)
      rw [buildScenario_netSavings_value _ hlen hF, hdec.1, hheadNC, hintb]
      dsimp only [refi15Params]
      ring
    · obtain ⟨h3, rfl⟩ := mem_ite_singleton hs
      have hdec := buildScenario_netCost_decomp
        (refi30Params input
          (buildScenario (baselineParams input)).monthlyPayment
          (amortizationSchedule input.remainingBalance input.currentAnnualRate
            (jsRound (input.yearsRemaining * 12))))
        hB hF hN (h30t h3) (hnc3 h3)
      split_ifs <;>
        · try dsimp only
          rw [buildScenario_netSavings_value _ hlen hF, hdec.1, hheadNC, hintb]
          dsimp only [refi30Params]
          ring

/-- Input used to refute C4 as stated: a 12-month loan at 50% with a
same-term refi at 22%, compared over the default (full-term) horizon, so
both schedules' final-payment rounding drift enters the net-cost figures. -/
def c4Input : EngineInput :=
  { remainingBalance := 1000
    currentAnnualRate := 5/10
    yearsRemaining := 1
    closingCosts := 100
    refiRateSameTerm := 22/100
    refiRate15yr := 9
    refiRate30yr := 9
    horizonOverrideMonths := none }

set_option maxRecDepth 10000 in
unseal Rat.mul Rat.add Rat.sub Rat.inv in
/-- C4 counterexample: on `c4Input` the refi scenario's
`netSavingsAtHorizon` is 67.86 while baseline netCost − refi netCost is
68.00; they differ by 14 cents, which exceeds one cent per horizon month
(the horizon is 12 months). -/
theorem generateScenarios_netSavings_counterexample :
    ((generateScenarios c4Input).getD 1 emptyScenario).netSavingsAtHorizon -
      (((generateScenarios c4Input).headD emptyScenario).netCostAtHorizon -
        ((generateScenarios c4Input).getD 1 emptyScenario).netCostAtHorizon) =
      -(7/50) ∧
    (12 : ℚ) / 100 < 7/50 := by
  constructor
  · decide
  · norm_num

/-- Concrete input satisfying the C4 side conditions: 6-month override on a
12-month loan, whole-cent balance and fees. -/
def c4WitnessInput : EngineInput :=
  { remainingBalance := 1000
    currentAnnualRate := 12/100
    yearsRemaining := 1
    closingCosts := 100
    refiRateSameTerm := 6/100
    refiRate15yr := 9
    refiRate30yr := 9
    horizonOverrideMonths := some 6 }

set_option maxRecDepth 10000 in
unseal Rat.mul Rat.add Rat.sub Rat.inv in
/-- Witness for C4 at a concrete input. -/
theorem generateScenarios_netSavings_spec_witness :
    (∀ s ∈ generateScenarios c4WitnessInput,
      s.netCostAtHorizon = s.cashOutflowWithinHorizon +
        s.remainingBalanceAtHorizon) ∧
    (∀ s ∈ generateScenarios c4WitnessInput,
      s.netSavingsAtHorizon =
        ((generateScenarios c4WitnessInput).headD emptyScenario).netCostAtHorizon -
          s.netCostAtHorizon) :=
  generateScenarios_netSavings_spec c4WitnessInput 6 12 rfl
    (by norm_num [jsRound, c4WitnessInput])
    ⟨100000, by norm_num [c4WitnessInput]⟩
    ⟨10000, by norm_num [c4WitnessInput]⟩
    (by norm_num) (by norm_num)
    (fun h => absurd h.1 (by norm_num [c4WitnessInput]))
    (fun h => absurd h (by norm_num [c4WitnessInput]))
    (by decide) (fun _ => by decide)
    (fun h => absurd h.1 (by norm_num [c4WitnessInput]))
    (fun h => absurd h (by norm_num [c4WitnessInput]))

set_option maxRecDepth 10000 in
unseal Rat.mul Rat.add Rat.sub Rat.inv in
/-- C8 counterexample: for principal 0.084 at a 590% annual rate over 6
months, the rounded payment clamps the balance to zero at month 4, the
following month still records a full payment of principal, and the summed
principal (0.15) misses the principal by 6.6 cents — beyond the claimed
1 cent × n = 6 cent tolerance. -/
theorem amortizationSchedule_sum_counterexample :
    (amortizationSchedule (21/250) (59/10) ((6 : ℕ) : ℤ)).length = 6 ∧
    sumPrincipalPaid (amortizationSchedule (21/250) (59/10) ((6 : ℕ) : ℤ)) = 3/20 ∧
    ¬ |sumPrincipalPaid (amortizationSchedule (21/250) (59/10) ((6 : ℕ) : ℤ)) -
        21/250| ≤ ((6 : ℕ) : ℚ) / 100 := by
  refine ⟨by decide, ?_, ?_⟩
  · decide
  · have hsum : sumPrincipalPaid (amortizationSchedule (21/250) (59/10)
        ((6 : ℕ) : ℤ)) = 3/20 := by decide
    rw [hsum]
    rw [show (3/20 : ℚ) - 21/250 = 33/500 by norm_num,
      abs_of_pos (by norm_num : (0 : ℚ) < 33/500)]
    norm_num

set_option maxRecDepth 10000 in
unseal Rat.mul Rat.add Rat.sub Rat.inv in
/-- Witness for C8 at a concrete clamp-free schedule. -/
theorem amortizationSchedule_spec_witness :
    ((amortizationSchedule 1000 (12/100) ((12 : ℕ) : ℤ)).length = 12) ∧
    (((amortizationSchedule 1000 (12/100) ((12 : ℕ) : ℤ)).getLast?).map
      (fun row => row.remainingBalance) = some 0) ∧
    (|sumPrincipalPaid (amortizationSchedule 1000 (12/100) ((12 : ℕ) : ℤ)) -
        1000| ≤ ((12 : ℕ) : ℚ) / 100) :=
  ⟨(amortizationSchedule_spec 1000 (12/100) 12).1,
   (amortizationSchedule_spec 1000 (12/100) 12).2.1 (by norm_num),
   (amortizationSchedule_spec 1000 (12/100) 12).2.2 (by norm_num) (by decide)⟩

-- ============================================================
-- C2: winner selection
-- ============================================================

theorem insertionSort_head_min :
    ∀ (l : List ScenarioResult) (x : ScenarioResult) (rest : List ScenarioResult),
      List.insertionSort
        (fun a b => a.netCostAtHorizon ≤ b.netCostAtHorizon) l = x :: rest →
      ∀ y ∈ l, x.netCostAtHorizon ≤ y.netCostAtHorizon := by
  intro l
  induction l with
  | nil => intro x rest h; simp [List.insertionSort] at h
  | cons a l2 ih =>
    intro x rest h y hy
    rw [List.insertionSort] at h
    rcases hsort : List.insertionSort
        (fun a b => a.netCostAtHorizon ≤ b.netCostAtHorizon) l2 with _ | ⟨b, t⟩
    · rw [hsort] at h
      simp only [List.orderedInsert] at h
      injection h with h1 h2
      subst h1
      have hl2 : l2 = [] := by
        have hperm := List.perm_insertionSort
          (fun a b : ScenarioResult => a.netCostAtHorizon ≤ b.netCostAtHorizon) l2
        rw [hsort] at hperm
        exact hperm.symm.eq_nil
      rcases List.mem_cons.mp hy with rfl | hy2
      · exact le_refl _
      · rw [hl2] at hy2
        simp at hy2
    · rw [hsort] at h
      simp only [List.orderedInsert] at h
      split_ifs at h with hab
      · have hxa : x = a := (List.head_eq_of_cons_eq h).symm
        subst hxa
        rcases List.mem_cons.mp hy with rfl | hy2
        · exact le_refl _
        · exact le_trans hab (ih b t hsort y hy2)
      · have hxb : x = b := (List.head_eq_of_cons_eq h).symm
        subst hxb
        have hba : x.netCostAtHorizon ≤ a.netCostAtHorizon :=
          le_of_not_le hab
        rcases List.mem_cons.mp hy with rfl | hy2
        · exact hba
        · exact ih x t hsort y hy2

theorem insertionSort_cons_of_min (a : ScenarioResult) (l : List ScenarioResult)
    (h : ∀ y ∈ l, a.netCostAtHorizon ≤ y.netCostAtHorizon) :
    ∃ t, List.insertionSort
      (fun x y => x.netCostAtHorizon ≤ y.netCostAtHorizon) (a :: l) = a :: t := by
  rw [List.insertionSort]
  rcases hsort : List.insertionSort
      (fun x y => x.netCostAtHorizon ≤ y.netCostAtHorizon) l with _ | ⟨b, t⟩
  · exact ⟨[], by rw [hsort]; simp [List.orderedInsert]⟩
  · have hb : b ∈ l := by
      have hperm := List.perm_insertionSort
        (fun x y : ScenarioResult => x.netCostAtHorizon ≤ y.netCostAtHorizon) l
      rw [hsort] at hperm
      exact hperm.mem_iff.mp (List.mem_cons_self b t)
    refine ⟨b :: t, ?_⟩
    rw [hsort]
    simp only [List.orderedInsert, if_pos (h b hb)]

theorem insertionSort_cons_of_lt (a : ScenarioResult) (l : List ScenarioResult)
    (hex : ∃ y ∈ l, y.netCostAtHorizon < a.netCostAtHorizon) :
    ∃ x t, List.insertionSort
      (fun u v => u.netCostAtHorizon ≤ v.netCostAtHorizon) (a :: l) = x :: t ∧
      x ∈ l := by
  rw [List.insertionSort]
  rcases hsort : List.insertionSort
      (fun u v => u.netCostAtHorizon ≤ v.netCostAtHorizon) l with _ | ⟨b, t⟩
  · obtain ⟨y, hy, _⟩ := hex
    have hperm := List.perm_insertionSort
      (fun u v : ScenarioResult => u.netCostAtHorizon ≤ v.netCostAtHorizon) l
    rw [hsort] at hperm
    rw [hperm.symm.eq_nil] at hy
    simp at hy
  · obtain ⟨y, hy, hylt⟩ := hex
    have hbmin := insertionSort_head_min l b t hsort
    have hb : b ∈ l := by
      have hperm := List.perm_insertionSort
        (fun u v : ScenarioResult => u.netCostAtHorizon ≤ v.netCostAtHorizon) l
      rw [hsort] at hperm
      exact hperm.mem_iff.mp (List.mem_cons_self b t)
    have hlt : b.netCostAtHorizon < a.netCostAtHorizon :=
      lt_of_le_of_lt (hbmin y hy) hylt
    refine ⟨b, List.orderedInsert
      (fun u v => u.netCostAtHorizon ≤ v.netCostAtHorizon) a t, ?_, hb⟩
    rw [hsort]
    simp only [List.orderedInsert, if_neg (not_le.mpr hlt)]

theorem generateScenarios_map_id (input : EngineInput) :
    (generateScenarios input).map (fun s => s.id) =
      ScenarioId.stay_current ::
        ((if input.refiRateSameTerm < input.currentAnnualRate
            then [ScenarioId.refi_same_term] else []) ++
         (if 15 < input.yearsRemaining ∧ input.refiRate15yr < input.currentAnnualRate
            then [ScenarioId.refi_15yr] else []) ++
         (if input.refiRate30yr < input.currentAnnualRate
            then [ScenarioId.refi_30yr] else [])) := by
  simp [generateScenarios, apply_ite (List.map (fun s : ScenarioResult => s.id)),
    apply_ite (fun s : ScenarioResult => s.id), buildScenario_id,
    baselineParams, sameTermParams, refi15Params, refi30Params]

theorem generateScenarios_nodup_id (input : EngineInput) :
    ((generateScenarios input).map (fun s => s.id)).Nodup := by
  rw [generateScenarios_map_id]
  split_ifs <;> decide

theorem generateScenarios_structure (input : EngineInput) :
    ∃ b rest, generateScenarios input = b :: rest ∧
      b.id = ScenarioId.stay_current ∧
      ∀ s ∈ rest, s.id ≠ ScenarioId.stay_current := by
  refine ⟨_, _, rfl, rfl, ?_⟩
  intro s hs
  rcases List.mem_append.mp hs with hs12 | hs3
  · rcases List.mem_append.mp hs12 with hs1 | hs2
    · obtain ⟨-, rfl⟩ := mem_ite_singleton hs1
      rw [buildScenario_id]
      simp [sameTermParams]
    · obtain ⟨-, rfl⟩ := mem_ite_singleton hs2
      rw [buildScenario_id]
      simp [refi15Params]
  · obtain ⟨-, rfl⟩ := mem_ite_singleton hs3
    split_ifs <;> (rw [buildScenario_id]; simp [refi30Params])

theorem countP_id_unique :
    ∀ (l : List ScenarioResult) (w : ScenarioId),
      (l.map (fun s => s.id)).Nodup → w ∈ l.map (fun s => s.id) →
      l.countP (fun s => decide (s.id = w)) = 1 := by
  intro l
  induction l with
  | nil => intro w _ hmem; simp at hmem
  | cons a l ih =>
    intro w hnd hmem
    rw [List.map_cons, List.nodup_cons] at hnd
    rw [List.countP_cons]
    rw [List.map_cons] at hmem
    rcases List.mem_cons.mp hmem with rfl | hw
    · have hzero : l.countP (fun s => decide (s.id = a.id)) = 0 := by
        rw [List.countP_eq_zero]
        intro s hs heq
        exact hnd.1 ((of_decide_eq_true heq) ▸ List.mem_map_of_mem _ hs)
      rw [hzero]
      simp
    · have hane : ¬ (a.id = w) := fun h => hnd.1 (h ▸ hw)
      rw [ih w hnd.2 hw]
      simp [hane]

/-- The per-scenario winner marking performed inside `runEngine`'s map. -/
def markScenario (w s : ScenarioResult) : ScenarioResult :=
  { (if s.id = w.id then w else s) with
    isBestLongTerm := decide (s.id = w.id) }

theorem mark_id (w s : ScenarioResult) : (markScenario w s).id = s.id := by
  rw [markScenario]
  by_cases h : s.id = w.id
  · simp only [if_pos h]
    exact h.symm
  · simp only [if_neg h]

theorem mark_netCost (w s : ScenarioResult)
    (hcond : s.id = w.id → w.netCostAtHorizon = s.netCostAtHorizon) :
    (markScenario w s).netCostAtHorizon = s.netCostAtHorizon := by
  rw [markScenario]
  by_cases h : s.id = w.id
  · simp only [if_pos h]
    exact hcond h
  · simp only [if_neg h]

theorem mark_flag (w s : ScenarioResult) :
    (markScenario w s).isBestLongTerm = decide (s.id = w.id) := rfl

theorem selectWinner_cons_stay (x : ScenarioResult) (t : List ScenarioResult)
    (base : ScenarioResult) (hx : x.id = ScenarioId.stay_current) :
    selectWinner (x :: t) base = base := by
  simp [selectWinner, hx]

theorem selectWinner_cons_not_stay (x : ScenarioResult) (t : List ScenarioResult)
    (base : ScenarioResult) (hx : ¬ (x.id = ScenarioId.stay_current)) :
    (selectWinner (x :: t) base).id = x.id ∧
    (selectWinner (x :: t) base).netCostAtHorizon = x.netCostAtHorizon := by
  simp only [selectWinner, if_neg hx]
  split_ifs <;> exact ⟨rfl, rfl⟩

theorem generateVerdict_bestId (w b : ScenarioResult) (h : ℚ) :
    (generateVerdict w b h).bestScenarioId = w.id := by
  rw [generateVerdict]
  split_ifs with hid
  · exact hid.symm
  · rfl

theorem marked_facts (gs : List ScenarioResult) (w : ScenarioResult)
    (hnodup : (gs.map (fun s => s.id)).Nodup)
    (hwmem : w.id ∈ gs.map (fun s => s.id)) :
    ((gs.map (markScenario w)).countP (fun s => s.isBestLongTerm)) = 1 ∧
    (∀ s ∈ gs.map (markScenario w), s.isBestLongTerm = true → s.id = w.id) := by
  constructor
  · rw [List.countP_map]
    show gs.countP (fun s => decide (s.id = w.id)) = 1
    exact countP_id_unique gs w.id hnodup hwmem
  · intro s hs hflag
    obtain ⟨s0, hs0, rfl⟩ := List.mem_map.mp hs
    have hid0 : s0.id = w.id := of_decide_eq_true (mark_flag w s0 ▸ hflag)
    rw [mark_id]
    exact hid0

/-- C2: every engine run marks exactly one scenario with `isBestLongTerm = true`,
the verdict's `bestScenarioId` equals that scenario's id, and the marked winner
is the `stay_current` baseline if and only if no refi scenario in the list has
strictly lower `netCostAtHorizon` than the baseline. -/
theorem runEngine_winner_spec (input : EngineInput) :
    ((runEngine input).scenarios.countP (fun s => s.isBestLongTerm)) = 1 ∧
    (∀ s ∈ (runEngine input).scenarios, s.isBestLongTerm = true →
      (runEngine input).verdict.bestScenarioId = s.id) ∧
    (∃ b rest, (runEngine input).scenarios = b :: rest ∧
      b.id = ScenarioId.stay_current ∧
      ((runEngine input).verdict.bestScenarioId = ScenarioId.stay_current ↔
        ∀ s ∈ rest, b.netCostAtHorizon ≤ s.netCostAtHorizon)) := by
  obtain ⟨b, rest, hsplit, hbid, hrestid⟩ := generateScenarios_structure input
  have hnodup := generateScenarios_nodup_id input
  set gs := generateScenarios input
  set base0 :=
    (gs.find? (fun s => s.id == ScenarioId.stay_current)).getD emptyScenario
    with hbase0
  set w := selectWinner (rankScenarios gs) base0 with hw
  have hsc : (runEngine input).scenarios = gs.map (markScenario w) := rfl
  have hv : (runEngine input).verdict.bestScenarioId = w.id := by
    have hvd : (runEngine input).verdict = generateVerdict w base0
        ((input.horizonOverrideMonths.getD
          (jsRound (input.yearsRemaining * 12)) : ℤ) : ℚ) := rfl
    rw [hvd, generateVerdict_bestId]
  have hpred : (b.id == ScenarioId.stay_current) = true := by
    simp only [hbid]
    decide
  have hfind : base0 = b := by
    rw [hbase0, hsplit,
      show List.find? (fun s : ScenarioResult => s.id == ScenarioId.stay_current)
          (b :: rest) = some b from List.find?_cons_of_pos _ hpred]
    rfl
  have hb_in : b ∈ gs := by rw [hsplit]; exact List.mem_cons_self b rest
  have hinj := List.inj_on_of_nodup_map hnodup
  by_cases hmin : ∀ s ∈ rest, b.netCostAtHorizon ≤ s.netCostAtHorizon
  · obtain ⟨t, hsort⟩ := insertionSort_cons_of_min b rest hmin
    have hwinner : w = b := by
      rw [hw, rankScenarios, hsplit, hsort, selectWinner_cons_stay _ _ _ hbid, hfind]
    have hwmem : w.id ∈ gs.map (fun s => s.id) := by
      rw [hwinner]
      exact List.mem_map_of_mem _ hb_in
    have hwnc : ∀ s ∈ gs, s.id = w.id → w.netCostAtHorizon = s.netCostAtHorizon := by
      intro s hsg hid
      have hsb : s = b := hinj hsg hb_in (by rw [hid, hwinner])
      rw [hwinner, hsb]
    obtain ⟨hcount, hflags⟩ := marked_facts gs w hnodup hwmem
    refine ⟨by rw [hsc]; exact hcount, ?_, ?_⟩
    · intro s hs hflag
      rw [hsc] at hs
      rw [hv]
      exact (hflags s hs hflag).symm
    · refine ⟨markScenario w b, rest.map (markScenario w), ?_, ?_, ?_⟩
      · rw [hsc, hsplit, List.map_cons]
      · rw [mark_id]; exact hbid
      · rw [hv]
        have hall : ∀ s ∈ rest.map (markScenario w),
            (markScenario w b).netCostAtHorizon ≤ s.netCostAtHorizon := by
          intro s hsm
          obtain ⟨s0, hs0, rfl⟩ := List.mem_map.mp hsm
          have hs0g : s0 ∈ gs := by rw [hsplit]; exact List.mem_cons_of_mem _ hs0
          rw [mark_netCost w b (hwnc b hb_in), mark_netCost w s0 (hwnc s0 hs0g)]
          exact hmin s0 hs0
        exact ⟨fun _ => hall, fun _ => by rw [hwinner]; exact hbid⟩
  · push_neg at hmin
    obtain ⟨y, hy, hylt⟩ := hmin
    obtain ⟨x, t, hsort, hxmem⟩ := insertionSort_cons_of_lt b rest ⟨y, hy, hylt⟩
    have hxg : x ∈ gs := by rw [hsplit]; exact List.mem_cons_of_mem _ hxmem
    have hxid : ¬ (x.id = ScenarioId.stay_current) := hrestid x hxmem
    have hwEq : w = selectWinner (x :: t) base0 := by
      rw [hw, rankScenarios, hsplit, hsort]
    obtain ⟨hwid, hwnc1⟩ := selectWinner_cons_not_stay x t base0 hxid
    rw [← hwEq] at hwid hwnc1
    have hwmem : w.id ∈ gs.map (fun s => s.id) := by
      rw [hwid]
      exact List.mem_map_of_mem _ hxg
    have hwnc : ∀ s ∈ gs, s.id = w.id → w.netCostAtHorizon = s.netCostAtHorizon := by
      intro s hsg hid
      have hsx : s = x := hinj hsg hxg (by rw [hid, hwid])
      rw [hwnc1, hsx]
    obtain ⟨hcount, hflags⟩ := marked_facts gs w hnodup hwmem
    refine ⟨by rw [hsc]; exact hcount, ?_, ?_⟩
    · intro s hs hflag
      rw [hsc] at hs
      rw [hv]
      exact (hflags s hs hflag).symm
    · refine ⟨markScenario w b, rest.map (markScenario w), ?_, ?_, ?_⟩
      · rw [hsc, hsplit, List.map_cons]
      · rw [mark_id]; exact hbid
      · rw [hv]
        constructor
        · intro habs
          exact absurd (hwid.symm.trans habs) hxid
        · intro hall
          exfalso
          have hyg : y ∈ gs := by rw [hsplit]; exact List.mem_cons_of_mem _ hy
          have hle := hall (markScenario w y) (List.mem_map_of_mem _ hy)
          rw [mark_netCost w b (hwnc b hb_in),
            mark_netCost w y (hwnc y hyg)] at hle
          exact absurd hle (not_le.mpr hylt)
